import Mathlib

/-!
Verification development for the `make_catalog/build_catalog.py` catalog
builder: a shallow embedding of its data model and operations, with theorems
checking the natural-language specification against the code.

Modelling conventions:
* JSON/Python values are modelled by `Val` (numbers as `ℚ`; Python floats are
  dyadic rationals, so every reachable number has a finite decimal form).
* Python `dict` rows are association lists `List (String × Val)`; `row.get(k)`
  is `dGet` (absent key ↦ `Val.vnull`, mirroring `None`).
* Code that can raise `AttributeError`/`TypeError` past a record boundary is
  given type `Except Unit _`; code that swallows failures returns `Option _`.
* The external `hangulize` transliteration resource is a parameter
  `Oracle := Option (String → Option String)`: `none` models an unavailable
  library (import failure), `some h` a present library whose per-token calls
  may fail (`h t = none` models a per-token exception).
* Regexes of the source are implemented as explicit character scanners with
  the same leftmost-search and greedy/backtracking semantics; `\w`, `\s`,
  case folding are modelled on the ASCII ranges the catalog data uses.
-/

/-- Python/JSON value universe. -/
inductive Val where
  | vnull
  | vbool (b : Bool)
  | vnum (q : ℚ)
  | vstr (s : String)
  | vlist (xs : List Val)
  | vdict (xs : List (String × Val))

/-- Python truthiness (`bool(x)`). -/
def Val.truthy : Val → Bool
  | Val.vnull => false
  | Val.vbool b => b
  | Val.vnum q => decide (q ≠ 0)
  | Val.vstr s => decide (s ≠ "")
  | Val.vlist xs => !xs.isEmpty
  | Val.vdict xs => !xs.isEmpty

/-- Quote-like and dash-like characters, by code point (the source holds them
as Unicode literals). -/
def chQuote : Char := Char.ofNat 39

def chDQuote : Char := Char.ofNat 34

def chRSQuote : Char := Char.ofNat 8217

def chLDQuote : Char := Char.ofNat 8220

def chRDQuote : Char := Char.ofNat 8221

def chDPrime : Char := Char.ofNat 8243

def chMinus : Char := Char.ofNat 8722

def chEnDash : Char := Char.ofNat 8211

def chEmDash : Char := Char.ofNat 8212

def chDegree : Char := Char.ofNat 176

def chMasc : Char := Char.ofNat 186

/-- Smallest exponent `e ≤ 63` with `den ∣ 10^e` (exists for every
denominator of a Python float, which is a power of two up to 2^53). -/
def pow10Exp (den : Nat) : Option Nat :=
  (List.range 64).find? (fun e => (10 ^ e) % den = 0)

def intRepr (i : Int) : String :=
  if i < 0 then "-" ++ Nat.repr i.natAbs else Nat.repr i.natAbs

/-- Rendering of `str(x)` for a numeric value: integers (denominator 1)
render like Python ints, terminating decimals like Python floats with the
shortest fraction. Non-dyadic rationals (unreachable from JSON input) get a
placeholder that no numeric parser accepts. -/
def numRepr (q : ℚ) : String :=
  if q.den = 1 then intRepr q.num
  else
    match pow10Exp q.den with
    | some e =>
      let scaled : Nat := q.num.natAbs * ((10 ^ e) / q.den)
      let ds0 := Nat.repr scaled
      let ds := if ds0.length ≤ e then
                  String.mk (List.replicate (e + 1 - ds0.length) '0') ++ ds0
                else ds0
      let ipart := String.mk (ds.data.take (ds.length - e))
      let fpartAll := ds.data.drop (ds.length - e)
      let fpart0 := (fpartAll.reverse.dropWhile (fun c => c = '0')).reverse
      let fpart := if fpart0 = [] then ['0'] else fpart0
      (if q.num < 0 then "-" else "") ++ ipart ++ "." ++ String.mk fpart
    | none => "frac-" ++ intRepr q.num ++ "-" ++ Nat.repr q.den

mutual

/-- Python `repr(x)` (string escaping abstracted; `dict` rendering abstracted
to a brace-free form — the pipeline only ever feeds it to emptiness tests). -/
def pyRepr : Val → String
  | Val.vnull => "None"
  | Val.vbool true => "True"
  | Val.vbool false => "False"
  | Val.vnum q => numRepr q
  | Val.vstr s => String.singleton chQuote ++ s ++ String.singleton chQuote
  | Val.vlist xs => "[" ++ pyReprJoin xs ++ "]"
  | Val.vdict xs => "dict-" ++ pyDictJoin xs

def pyReprJoin : List Val → String
  | [] => ""
  | [x] => pyRepr x
  | x :: y :: rest => pyRepr x ++ ", " ++ pyReprJoin (y :: rest)

def pyDictJoin : List (String × Val) → String
  | [] => ""
  | e :: rest => e.1 ++ "=" ++ pyRepr e.2 ++ ";" ++ pyDictJoin rest

end

/-- Python `str(x)`: identity on strings, `repr` everywhere else. -/
def pyStr : Val → String
  | Val.vstr s => s
  | v => pyRepr v

/-- Sign prefix of a Python number literal; returns (negative?, rest). -/
def parseSign : List Char → Bool × List Char
  | '+' :: r => (false, r)
  | '-' :: r => (true, r)
  | r => (false, r)

def digitVal (c : Char) : Nat := c.toNat - 48

def digitsToNat (ds : List Char) : Nat :=
  ds.foldl (fun a c => a * 10 + digitVal c) 0

/-!
Rational arithmetic and string utilities, written over `mkRat` and
`List Char` so that every definition evaluates by kernel reduction (the
library's `Rat` operators and byte-position `String` functions do not). They
implement exactly the standard operations.
-/

def qOfNat (n : Nat) : ℚ := mkRat (Int.ofNat n) 1

def qOfInt (i : Int) : ℚ := mkRat i 1

def qAdd (a b : ℚ) : ℚ :=
  mkRat (a.num * (b.den : Int) + b.num * (a.den : Int)) (a.den * b.den)

def qSub (a b : ℚ) : ℚ :=
  mkRat (a.num * (b.den : Int) - b.num * (a.den : Int)) (a.den * b.den)

def qMul (a b : ℚ) : ℚ := mkRat (a.num * b.num) (a.den * b.den)

def qDiv (a b : ℚ) : ℚ :=
  if b.num < 0 then mkRat (-(a.num * (b.den : Int))) (a.den * b.num.natAbs)
  else mkRat (a.num * (b.den : Int)) (a.den * b.num.natAbs)

def qNeg (a : ℚ) : ℚ := mkRat (-a.num) a.den

def qLtB (a b : ℚ) : Bool := decide (a.num * (b.den : Int) < b.num * (a.den : Int))

def qFloor (q : ℚ) : Int := Int.fdiv q.num (q.den : Int)

/-- Lexicographic code-point order on character lists (Python string `<`). -/
def listLtB : List Char → List Char → Bool
  | [], [] => false
  | [], _ :: _ => true
  | _ :: _, [] => false
  | a :: as, b :: bs => if a < b then true else if b < a then false else listLtB as bs

def wsChar (c : Char) : Bool := c.isWhitespace

def trimList (cs : List Char) : List Char :=
  ((cs.dropWhile wsChar).reverse.dropWhile wsChar).reverse

/-- Python `s.strip()`. -/
def pyTrim (s : String) : String := String.mk (trimList s.data)

/-- Python `s.lower()` (ASCII range). -/
def lowerStr (s : String) : String := String.mk (s.data.map Char.toLower)

/-- Python `s.upper()` (ASCII range). -/
def upperStr (s : String) : String := String.mk (s.data.map Char.toUpper)

/-- Python `s.startswith(pre)`. -/
def startsWithStr (s pre : String) : Bool := List.isPrefixOf pre.data s.data

def splitAux (p : Char → Bool) : List Char → List Char → List (List Char)
  | [], acc => [acc.reverse]
  | c :: rest, acc =>
    if p c then acc.reverse :: splitAux p rest [] else splitAux p rest (c :: acc)

/-- Split at every character satisfying `p`, keeping empty pieces (the
behaviour of Python `str.split(sep)` for one-character separators, and the
basis of run-splitting after empty pieces are filtered). -/
def splitStr (p : Char → Bool) (s : String) : List String :=
  (splitAux p s.data []).map String.mk

/-- Python `s.rstrip(c)`-style right trim by a predicate. -/
def dropRightWhileStr (p : Char → Bool) (s : String) : String :=
  String.mk ((s.data.reverse.dropWhile p).reverse)

/-- Python `s[n:]` for a character count. -/
def dropStr (s : String) (n : Nat) : String := String.mk (s.data.drop n)

/-- Optional exponent part of a float literal, requiring end of input after. -/
def parseExpPart (base : ℚ) (cs : List Char) : Option ℚ :=
  match cs with
  | [] => some base
  | c :: r =>
    if c = 'e' || c = 'E' then
      let sr := parseSign r
      let ed := sr.2.takeWhile Char.isDigit
      let r3 := sr.2.drop ed.length
      if ed.length = 0 || r3 ≠ [] then none
      else some (if sr.1 then qDiv base (qOfNat (10 ^ digitsToNat ed))
                 else qMul base (qOfNat (10 ^ digitsToNat ed)))
    else none

def parseFloatCore (cs : List Char) : Option ℚ :=
  let ip := cs.takeWhile Char.isDigit
  let r1 := cs.drop ip.length
  match r1 with
  | '.' :: r2 =>
    let fp := r2.takeWhile Char.isDigit
    let r3 := r2.drop fp.length
    if ip.length = 0 && fp.length = 0 then none
    else parseExpPart
      (mkRat (Int.ofNat (digitsToNat ip * 10 ^ fp.length + digitsToNat fp)) (10 ^ fp.length)) r3
  | _ => if ip.length = 0 then none else parseExpPart (qOfNat (digitsToNat ip)) r1

/-- Python `float(s)` on finite decimal/scientific literals (allows leading
sign and surrounding whitespace; `inf`/`nan`/underscores are out of the
modelled value range and map to a failure). -/
def parseFloat (s : String) : Option ℚ :=
  let sr := parseSign (pyTrim s).data
  match parseFloatCore sr.2 with
  | some q => some (if sr.1 then qNeg q else q)
  | none => none

/-- Canonicalisation of one character, as in `norm_str`'s chained
`str.replace` calls (all of which are single character to single character). -/
def normChar (c : Char) : Char :=
  if c = chMinus || c = chEnDash || c = chEmDash then '-'
  else if c = chMasc then chDegree
  else if c = chRSQuote then chQuote
  else if c = chLDQuote || c = chRDQuote || c = chDPrime then chDQuote
  else c

/-- `norm_str` from the source: None ↦ None, trim, empty ↦ None, then
canonicalise punctuation variants. -/
def norm_str (x : Val) : Option String :=
  match x with
  | Val.vnull => none
  | _ =>
    let s := pyTrim (pyStr x)
    if s = "" then none
    else some (String.mk (s.data.map normChar))

/-- `str(x).replace("+", "")` — removes every plus sign. -/
def stripAllPlus (s : String) : String :=
  String.mk (s.data.filter (fun c => c ≠ '+'))

/-- `float_or_none` from the source: None/blank/"none" ↦ None, strip all
`+`, parse, failure ↦ None. -/
def float_or_none (x : Val) : Option ℚ :=
  match x with
  | Val.vnull => none
  | _ =>
    let s := pyStr x
    if pyTrim s = "" then none
    else if lowerStr s = "none" then none
    else parseFloat (stripAllPlus s)

/-- Round to nearest integer, ties to even (the rounding of `%.2f` on the
exactly representable values the pipeline formats). -/
def roundHalfEven (q : ℚ) : Int :=
  let f := qFloor q
  let r := qSub q (qOfInt f)
  if qLtB r (mkRat 1 2) then f else if qLtB (mkRat 1 2) r then f + 1
  else if f % 2 = 0 then f else f + 1

def pad2Nat (n : Nat) : String :=
  if n < 10 then "0" ++ Nat.repr n else Nat.repr n

/-- Python `f"{s:05.2f}"`: two decimals, zero-padded to width 5 after the
sign. -/
def fmt2f (s : ℚ) : String :=
  let neg := qLtB s (qOfNat 0)
  let c := (roundHalfEven (qMul (if neg then qNeg s else s) (qOfNat 100))).toNat
  let body := Nat.repr (c / 100) ++ "." ++ pad2Nat (c % 100)
  let full := (if neg then "-" else "") ++ body
  if full.length < 5 then
    (if neg then "-" ++ String.mk (List.replicate (5 - full.length) '0') ++ body
     else String.mk (List.replicate (5 - full.length) '0') ++ full)
  else full

/-- Python `f"{i:02d}"` (sign counts toward the width, as in Python). -/
def pad2Int (i : Int) : String :=
  if 0 ≤ i then pad2Nat i.toNat else "-" ++ Nat.repr i.natAbs

/-- `hms_to_str` from the source. -/
def hms_to_str (h m : Int) (s : ℚ) : String :=
  pad2Int h ++ ":" ++ pad2Int m ++ ":" ++ fmt2f s

/-- `dms_to_str` from the source. -/
def dms_to_str (sign : Int) (d m : Int) (s : ℚ) : String :=
  (if 0 ≤ sign then "+" else "-") ++ pad2Int d ++ ":" ++ pad2Int m ++ ":" ++ fmt2f s

/-- Python `int(x)` truncates toward zero (`Int.tdiv` is T-division). -/
def ratTrunc (q : ℚ) : Int := Int.tdiv q.num (q.den : Int)

/-- `first(*vals)` from the source, at the `Optional[str]` arguments it is
called with: skip `None` and blank strings, return the first other value. -/
def firstStr : List (Option String) → Option String
  | [] => none
  | none :: rest => firstStr rest
  | some s :: rest => if pyTrim s = "" then firstStr rest else some s

/-- `KO_MAP` from the source: curated English → Korean overrides. -/
def KO_MAP : List (String × String) := [
  ("Andromeda Galaxy", "안드로메다 은하"),
  ("Orion Nebula", "오리온 대성운"),
  ("Pleiades", "플레이아데스 성단"),
  ("Lagoon Nebula", "라군 성운"),
  ("Ring Nebula", "링 성운"),
  ("Dumbbell Nebula", "덤벨 성운"),
  ("Hercules Globular Cluster", "헤라클레스 구상성단"),
  ("Omega Nebula", "오메가 성운"),
  ("Trifid Nebula", "트리피드 성운"),
  ("Sombrero Galaxy", "솜브레로 은하"),
  ("Sirius", "시리우스"),
  ("Canopus", "카노푸스"),
  ("Arcturus", "아크투루스"),
  ("Vega", "베가"),
  ("Capella", "카펠라"),
  ("Rigel", "리겔"),
  ("Procyon", "프로키온"),
  ("Achernar", "아케르나르"),
  ("Betelgeuse", "베텔지우스"),
  ("Altair", "알타이르"),
  ("Deneb", "데네브"),
  ("Polaris", "폴라리스"),
  ("Rigel Kentaurus", "리겔 케타우루스"),
  ("Aldebaran", "알데바란"),
  ("Antares", "안타레스"),
  ("Pollux", "폴룩스"),
  ("Fomalhaut", "포말하우트"),
  ("Mimosa", "미모사"),
  ("Regulus", "레굴루스"),
  ("Bellatrix", "벨라트릭스"),
  ("Elnath", "엘나스"),
  ("Alnilam", "알닐람"),
  ("Alnair", "알나이르"),
  ("Alioth", "알리오스"),
  ("Mirfak", "미르팍"),
  ("Alkaid", "알카이드"),
  ("Peacock", "피콕, 공작"),
  ("Mirzam", "미르잠")]

/-- `KO_MAP.get(n)`. -/
def koFind (n : String) : Option String :=
  (KO_MAP.find? (fun p => p.1 == n)).map (fun p => p.2)

/-- `SOLAR_SYSTEM` from the source. -/
def SOLAR_SYSTEM : List (String × String) := [
  ("Mercury", "수성"), ("Venus", "금성"), ("Earth", "지구"), ("Mars", "화성"),
  ("Jupiter", "목성"), ("Saturn", "토성"), ("Uranus", "천왕성"), ("Neptune", "해왕성"),
  ("Pluto", "명왕성"), ("Moon", "달"),
  ("Ganymede", "가니메데"), ("Io", "이오"), ("Callisto", "칼리스토"), ("Europa", "유로파"),
  ("Titan", "타이탄")]

/-- Non-overlapping left-to-right replacement of the pattern `p :: ps`, as in
Python `str.replace`; the fuel (initially the input length, which bounds the
number of steps) keeps the recursion structural. -/
def replaceSub (p : Char) (ps rep : List Char) : Nat → List Char → List Char
  | 0, cs => cs
  | _ + 1, [] => []
  | fuel + 1, c :: rest =>
    if c = p && List.isPrefixOf ps rest then
      rep ++ replaceSub p ps rep fuel (rest.drop ps.length)
    else c :: replaceSub p ps rep fuel rest

/-- Python `s.replace(pat, rep)` for a non-empty pattern. -/
def strReplace (s pat rep : String) : String :=
  match pat.data with
  | [] => s
  | p :: ps => String.mk (replaceSub p ps rep.data s.data.length s.data)

/-- External transliteration resource: `none` models `hangulize` failing to
import, `some h` a present resource whose per-token conversion may fail. -/
abbrev Oracle := Option (String → Option String)

/-- Separator class of `re.split(r"\s*[-\s]\s*", ·)` (equivalent, after
dropping empty pieces, to splitting on runs of whitespace and hyphens). -/
def sepChar (c : Char) : Bool := c.isWhitespace || c = '-'

def splitTokens (s : String) : List String :=
  (splitStr sepChar s).filter (fun t => t ≠ "")

/-- `eng_to_hangul` from the source: empty ↦ empty; without the resource the
input is returned unchanged; with it, tokens are converted one by one (a
failing token is kept verbatim) and joined without separator. -/
def eng_to_hangul (oracle : Oracle) (name : String) : String :=
  if name = "" then ""
  else
    match oracle with
    | none => name
    | some h =>
      let txt := pyTrim name
      if txt = "" then ""
      else String.join ((splitTokens txt).map (fun t => (h t).getD t))

/-- Character filter of `re.sub(r"[^A-Za-z0-9\s\-]", " ", name)`. -/
def keepChar (c : Char) : Char :=
  if c.isAlphanum || c.isWhitespace || c = '-' then c else ' '

/-- Ordered digraph substitutions of `eng_to_hangul_simple`. -/
def replPairs : List (String × String) := [
  ("ph", "프"), ("ch", "치"), ("sh", "시"), ("th", "스"), ("gh", "그"),
  ("ck", "크"), ("qu", "쿠"), ("x", "크스"), ("ce", "스"), ("ci", "시"),
  ("ge", "지"), ("gi", "지")]

/-- Two-character vowel digraphs of the `vowel` table. -/
def vowel2 (a b : Char) : Option String :=
  if a = 'a' && b = 'a' then some "아"
  else if a = 'e' && b = 'e' then some "이"
  else if a = 'o' && b = 'o' then some "우"
  else if a = 'a' && b = 'i' then some "아이"
  else if a = 'a' && b = 'u' then some "아우"
  else if a = 'e' && b = 'i' then some "에이"
  else if a = 'o' && b = 'u' then some "오우"
  else none

/-- Single-character vowels of the `vowel` table. -/
def vowel1 (c : Char) : Option String :=
  if c = 'a' then some "아"
  else if c = 'e' then some "에"
  else if c = 'i' then some "이"
  else if c = 'o' then some "오"
  else if c = 'u' then some "우"
  else if c = 'y' then some "이"
  else none

/-- The `cons` consonant table. -/
def cons1 (c : Char) : Option String :=
  if c = 'b' then some "브" else if c = 'c' then some "크"
  else if c = 'd' then some "드" else if c = 'f' then some "프"
  else if c = 'g' then some "그" else if c = 'h' then some "흐"
  else if c = 'j' then some "지" else if c = 'k' then some "크"
  else if c = 'l' then some "르" else if c = 'm' then some "므"
  else if c = 'n' then some "느" else if c = 'p' then some "프"
  else if c = 'q' then some "쿠" else if c = 'r' then some "르"
  else if c = 's' then some "스" else if c = 't' then some "트"
  else if c = 'v' then some "브" else if c = 'w' then some "우"
  else if c = 'z' then some "즈" else none

/-- One character of the scan: vowel, else consonant lookup with the
character itself as default (Python's alpha test and the default of
`cons.get` coincide on every character outside the table). -/
def syllMapOne (c : Char) : String :=
  match vowel1 c with
  | some v => v
  | none => (cons1 c).getD (String.singleton c)

/-- Left-to-right scan preferring two-character vowel digraphs. -/
def syllScan : List Char → List String
  | [] => []
  | [c] => [syllMapOne c]
  | a :: b :: rest =>
    match vowel2 a b with
    | some v => v :: syllScan rest
    | none => syllMapOne a :: syllScan (b :: rest)

/-- `eng_to_hangul_simple` from the source: the deterministic rule-based
syllable mapper (defined in the script but never called by it). -/
def eng_to_hangul_simple (name : String) : String :=
  if name = "" then ""
  else
    let txt := String.mk (name.data.map keepChar)
    let tokens := (splitStr sepChar txt).filter (fun t => t ≠ "")
    String.join (tokens.map (fun w =>
      let lw := replPairs.foldl (fun acc pr => strReplace acc pr.1 pr.2) (lowerStr w)
      String.join (syllScan lw.data)))

/-- `\w` of the source regexes, on the ASCII range of the catalog data. -/
def isWordChar (c : Char) : Bool := c.isAlphanum || c = '_'

/-- Attempt of `MESSIER_ID_RE` (`\bM\s*([0-9]{1,3})\b`) just after an `M` at
a word boundary: skip whitespace, then a run of 1–3 digits whose follower is
not a word character (the greedy `{1,3}` with the trailing `\b` matches
exactly a maximal digit run of length at most 3). -/
def messierIdTry (cs : List Char) : Option Nat :=
  let r1 := cs.dropWhile (fun c => c.isWhitespace)
  let ds := r1.takeWhile Char.isDigit
  let rest := r1.drop ds.length
  if 1 ≤ ds.length && ds.length ≤ 3 &&
     (match rest with | [] => true | c :: _ => !isWordChar c) then
    some (digitsToNat ds)
  else none

/-- Leftmost search of `MESSIER_ID_RE`; `prevWord` tracks the word boundary. -/
def messierIdSearch (prevWord : Bool) : List Char → Option Nat
  | [] => none
  | c :: rest =>
    if !prevWord && (c = 'M' || c = 'm') then
      match messierIdTry rest with
      | some n => some n
      | none => messierIdSearch (isWordChar c) rest
    else messierIdSearch (isWordChar c) rest

def messier_id_search (s : String) : Option Nat := messierIdSearch false s.data

def isHchar (c : Char) : Bool := c = 'h' || c = 'H'

def isMchar (c : Char) : Bool := c = 'm' || c = 'M'

def isSchar (c : Char) : Bool := c = 's' || c = 'S'

/-- `[0-9]{1,2}` followed by a required character class, with the greedy
two-then-one backtracking of the regex engine. -/
def digits12Then (isT : Char → Bool) : List Char → Option (Nat × List Char)
  | a :: b :: rest =>
    if a.isDigit && b.isDigit &&
       (match rest with | c :: _ => isT c | [] => false) then
      some (digitVal a * 10 + digitVal b, rest.drop 1)
    else if a.isDigit && isT b then some (digitVal a, rest)
    else none
  | _ => none

/-- `[0-9]{1,2}` with no required follower (greedy, no backtracking needed:
everything after it in the patterns that use it is optional). -/
def digits12Free : List Char → Option (Nat × List Char)
  | a :: b :: rest =>
    if a.isDigit && b.isDigit then some (digitVal a * 10 + digitVal b, rest)
    else if a.isDigit then some (digitVal a, b :: rest)
    else none
  | [a] => if a.isDigit then some (digitVal a, ([] : List Char)) else none
  | [] => none

/-- `(?:\.[0-9]+)?`: a fraction part (dot followed by at least one digit). -/
def fracTail (cs : List Char) : Option (ℚ × List Char) :=
  match cs with
  | c :: rest =>
    if c = '.' then
      let ds := rest.takeWhile Char.isDigit
      if ds.length = 0 then none
      else some (mkRat (Int.ofNat (digitsToNat ds)) (10 ^ ds.length), rest.drop ds.length)
    else none
  | [] => none

/-- Continuation of `[0-9]{1,2}(?:\.[0-9]+)?` `T` after the integer digits:
optional fraction, then the required class `T`. A present-but-unfollowed
fraction cannot be rescued by backtracking (shorter fraction runs and the
no-fraction alternative both put a digit or a dot where `T` must be). -/
def numFracThenAux (isT : Char → Bool) (ip : Nat) (cs : List Char) : Option (ℚ × List Char) :=
  match fracTail cs with
  | some fr =>
    (match fr.2 with
     | c :: r2 => if isT c then some (qAdd (qOfNat ip) fr.1, r2) else none
     | [] => none)
  | none =>
    (match cs with
     | c :: r2 => if isT c then some (qOfNat ip, r2) else none
     | [] => none)

/-- `([0-9]{1,2}(?:\.[0-9]+)?)` followed by a required class. The `{1,2}`
one-digit backtrack can never succeed where the two-digit path failed (the
second digit is neither a dot nor in `T`), so the greedy take is exact. -/
def numFracThen (isT : Char → Bool) : List Char → Option (ℚ × List Char)
  | a :: b :: rest =>
    if a.isDigit && b.isDigit then
      numFracThenAux isT (digitVal a * 10 + digitVal b) rest
    else if a.isDigit then numFracThenAux isT (digitVal a) (b :: rest)
    else none
  | [a] => if a.isDigit then numFracThenAux isT (digitVal a) [] else none
  | [] => none

/-- Attempt of `RA_RE` at one position: `RA\s*([0-9]{1,2})h\s*`
`([0-9]{1,2}(?:\.[0-9]+)?)m(?:\s*([0-9]{1,2}(?:\.[0-9]+)?)s)?`, case
insensitive. Returns (hours, minutes, optional seconds). -/
def raTry (cs : List Char) : Option (Nat × ℚ × Option ℚ) :=
  match cs with
  | c1 :: c2 :: rest =>
    if (c1 = 'R' || c1 = 'r') && (c2 = 'A' || c2 = 'a') then
      let r1 := rest.dropWhile (fun c => c.isWhitespace)
      match digits12Then isHchar r1 with
      | none => none
      | some hr =>
        let r3 := hr.2.dropWhile (fun c => c.isWhitespace)
        match numFracThen isMchar r3 with
        | none => none
        | some mr =>
          let r5 := mr.2.dropWhile (fun c => c.isWhitespace)
          match numFracThen isSchar r5 with
          | some sr => some (hr.1, mr.1, some sr.1)
          | none => some (hr.1, mr.1, none)
    else none
  | _ => none

def raSearch : List Char → Option (Nat × ℚ × Option ℚ)
  | [] => none
  | c :: rest =>
    match raTry (c :: rest) with
    | some r => some r
    | none => raSearch rest

/-- The `(?:Dec|LD\.?)` alternation, case insensitive, `Dec` branch first. -/
def decPrefix : List Char → Option (List Char)
  | c1 :: c2 :: c3 :: rest =>
    if (c1 = 'D' || c1 = 'd') && (c2 = 'E' || c2 = 'e') && (c3 = 'C' || c3 = 'c') then
      some rest
    else if (c1 = 'L' || c1 = 'l') && (c2 = 'D' || c2 = 'd') then
      some (if c3 = '.' then rest else c3 :: rest)
    else none
  | [c1, c2] =>
    if (c1 = 'L' || c1 = 'l') && (c2 = 'D' || c2 = 'd') then some [] else none
  | _ => none

/-- The sign class `[+\-−–]` of `DEC_RE`. -/
def isSignChar (c : Char) : Bool := c = '+' || c = '-' || c = chMinus || c = chEnDash

/-- The degree class `[°º]` of `DEC_RE`. -/
def isDegChar (c : Char) : Bool := c = chDegree || c = chMasc

/-- Attempt of `DEC_RE` at one position:
`(?:Dec|LD\.?)\s*([+\-−–]?)\s*([0-9]{1,2})[°º]\s*([0-9]{1,2})['’]?`
`(?:\s*([0-9]{1,2}(?:\.[0-9]+)?)\"?)?`. Returns
(negative sign captured, degrees, minutes, seconds with 0 default). -/
def decTry (cs : List Char) : Option (Bool × Nat × Nat × ℚ) :=
  match decPrefix cs with
  | none => none
  | some r0 =>
    let r1 := r0.dropWhile (fun c => c.isWhitespace)
    let sgn : Bool × List Char :=
      match r1 with
      | c :: rest => if isSignChar c then (c = '-', rest) else (false, r1)
      | [] => (false, r1)
    let r3 := sgn.2.dropWhile (fun c => c.isWhitespace)
    match digits12Then isDegChar r3 with
    | none => none
    | some dr =>
      let r5 := dr.2.dropWhile (fun c => c.isWhitespace)
      match digits12Free r5 with
      | none => none
      | some mr =>
        let r7 :=
          match mr.2 with
          | c :: rest => if c = chQuote || c = chRSQuote then rest else mr.2
          | [] => mr.2
        let r8 := r7.dropWhile (fun c => c.isWhitespace)
        let ds : ℚ :=
          match digits12Free r8 with
          | none => qOfNat 0
          | some sr =>
            (match fracTail sr.2 with
             | some fr => qAdd (qOfNat sr.1) fr.1
             | none => qOfNat sr.1)
        some (sgn.1, dr.1, mr.1, ds)

def decSearch : List Char → Option (Bool × Nat × Nat × ℚ)
  | [] => none
  | c :: rest =>
    match decTry (c :: rest) with
    | some r => some r
    | none => decSearch rest

/-- The canonical record: one field per dict key any of the three parsers
writes. `none` models an absent key, `some Val.vnull` a key holding `None`
(the distinction `dict.get` cannot see but `patch.items()` iteration can).
The `type` key is modelled as `type_`. -/
structure CelestialRecord where
  id : Option Val
  catalog : Option Val
  name_en : Option Val
  name_kr : Option Val
  ra : Option Val
  dec : Option Val
  magnitude : Option Val
  type_ : Option Val
  constellation : Option Val
  aliases_en : Option Val
  aliases_kr : Option Val
  bayerFlamsteed : Option Val
  spectralType : Option Val

/-- `row.get(k)` on an association-list dict (`None` when absent). -/
def dGet (xs : List (String × Val)) (k : String) : Val :=
  match xs.find? (fun e => e.1 == k) with
  | some e => e.2
  | none => Val.vnull

/-- `row.get(k, d)`. -/
def dGetD (xs : List (String × Val)) (k : String) (d : Val) : Val :=
  match xs.find? (fun e => e.1 == k) with
  | some e => e.2
  | none => d

def optStrVal (o : Option String) : Val :=
  match o with
  | some s => Val.vstr s
  | none => Val.vnull

def optNumVal (o : Option ℚ) : Val :=
  match o with
  | some q => Val.vnum q
  | none => Val.vnull

/-- Identifier extraction of `parse_messier_row`: `"M<n>"` without leading
zeros if the pattern matches, else `"M?"`. -/
def messier_mid (raw_name : Option String) : String :=
  match messier_id_search (raw_name.getD "") with
  | some n => "M" ++ Nat.repr n
  | none => "M?"

/-- Common-name candidate from the free-text `name` field: the second
comma-segment, period-stripped, when the first segment starts with `M`. -/
def messier_common_name (raw_name : Option String) : Option String :=
  let step1 : Option String :=
    match raw_name with
    | none => none
    | some rn =>
      let parts := (splitStr (fun c => c = ',') rn).map pyTrim
      if !parts.isEmpty && startsWithStr (upperStr (parts.headD "")) "M" then
        match parts.drop 1 with
        | p1 :: _ => some p1
        | [] => none
      else none
  match step1 with
  | some s => if s ≠ "" then some (dropRightWhileStr (fun c => c = '.') s) else some s
  | none => none

/-- `name_en` resolution of `parse_messier_row`: explicit field, else the
common-name candidate, else the identifier. -/
def messier_name_en (raw_name name_en_field : Option String) (mid : String) : String :=
  match name_en_field with
  | some s => s
  | none =>
    match messier_common_name raw_name with
    | some s => if s ≠ "" then s else mid
    | none => mid

/-- `name_kr` resolution: explicit field, else override table, else
transliteration. -/
def messier_name_kr (oracle : Oracle) (name_kr_field : Option String)
    (name_en : String) : String :=
  match name_kr_field with
  | some s => s
  | none =>
    match koFind name_en with
    | some k => k
    | none => eng_to_hangul oracle name_en

/-- Coordinate parsing of `parse_messier_row`: label canonicalisation then
the two regex searches; a missed pattern leaves the side `none`. -/
def messier_radec (coords : Option String) : Option String × Option String :=
  match coords with
  | none => (none, none)
  | some co =>
    let c1 := strReplace (strReplace co "LD." "Dec") "ld." "Dec"
    let c2 := String.mk (c1.data.map (fun ch =>
      if ch = chEnDash || ch = chMinus then '-'
      else if ch = chMasc then chDegree else ch))
    let ra_str :=
      match raSearch c2.data with
      | none => none
      | some hms =>
        let ss0 := hms.2.2.getD (qOfNat 0)
        let mm_i := ratTrunc hms.2.1
        let ss := qAdd ss0 (qMul (qSub hms.2.1 (qOfInt mm_i)) (qOfNat 60))
        some (hms_to_str (Int.ofNat hms.1) mm_i ss)
    let dec_str :=
      match decSearch c2.data with
      | none => none
      | some d =>
        some (dms_to_str (if d.1 then -1 else 1) (d.2.1 : Int) (d.2.2.1 : Int) d.2.2.2)
    (ra_str, dec_str)

/-- `parse_messier_row` on a mapping row (the body of the source function,
which for a mapping argument never raises — every fallible step is guarded
or swallowed). -/
def parse_messier_dict (oracle : Oracle) (xs : List (String × Val)) : CelestialRecord :=
  let raw_name := norm_str (dGet xs "name")
  let mid := messier_mid raw_name
  let name_en := messier_name_en raw_name (norm_str (dGet xs "name_en")) mid
  let radec := messier_radec (norm_str (dGet xs "coordinates"))
  { id := some (Val.vstr mid), catalog := some (Val.vstr "Messier"),
    name_en := some (Val.vstr name_en),
    name_kr := some (Val.vstr (messier_name_kr oracle (norm_str (dGet xs "name_kr")) name_en)),
    ra := some (optStrVal radec.1), dec := some (optStrVal radec.2),
    magnitude := some (optNumVal (float_or_none (dGet xs "magnitude"))),
    type_ := some Val.vnull, constellation := some Val.vnull,
    aliases_en := none, aliases_kr := none, bayerFlamsteed := none,
    spectralType := none }

/-- `parse_messier_row` on an arbitrary element of the input list: `row.get`
on a non-mapping raises `AttributeError`. -/
def parse_messier_row (oracle : Oracle) (row : Val) : Except Unit CelestialRecord :=
  match row with
  | Val.vdict xs => Except.ok (parse_messier_dict oracle xs)
  | _ => Except.error ()

/-- The minimal record built by the `except` branch of
`normalize_messier_simple`. -/
def messier_fallback_rec (oracle : Oracle) (xs : List (String × Val)) : CelestialRecord :=
  let raw_name := norm_str (dGet xs "name")
  let mid :=
    match (match raw_name with
           | some rn => messier_id_search rn
           | none => none) with
    | some n => "M" ++ Nat.repr n
    | none => "M?"
  let name_en :=
    match norm_str (dGet xs "name_en") with
    | some s => s
    | none =>
      match raw_name with
      | some rn => rn
      | none => mid
  let name_kr :=
    match norm_str (dGet xs "name_kr") with
    | some s => s
    | none =>
      match koFind name_en with
      | some k => k
      | none => eng_to_hangul oracle name_en
  { id := some (Val.vstr mid), catalog := some (Val.vstr "Messier"),
    name_en := some (Val.vstr name_en), name_kr := some (Val.vstr name_kr),
    ra := some Val.vnull, dec := some Val.vnull,
    magnitude := some (optNumVal (float_or_none (dGet xs "magnitude"))),
    type_ := some Val.vnull, constellation := some Val.vnull,
    aliases_en := none, aliases_kr := none, bayerFlamsteed := none,
    spectralType := none }

/-- The `except` branch itself starts with `row.get("name")`, so on a
non-mapping row it raises again and the whole batch aborts. -/
def messier_fallback (oracle : Oracle) (row : Val) : Except Unit CelestialRecord :=
  match row with
  | Val.vdict xs => Except.ok (messier_fallback_rec oracle xs)
  | _ => Except.error ()

/-- `normalize_messier_simple` from the source: per row, try the parser and
fall back to the minimal record on failure. -/
def normalize_messier_simple (oracle : Oracle) (rows : List Val) : Except Unit (List CelestialRecord) :=
  rows.mapM (fun row =>
    match parse_messier_row oracle row with
    | Except.ok r => Except.ok r
    | Except.error _ => messier_fallback oracle row)

/-- Python `int(x)` at the argument types the parser feeds it (numbers
truncate toward zero, strings must be integer literals, booleans coerce;
anything else raises, caught by the surrounding `try`). -/
def parseIntStr (s : String) : Option Int :=
  let sr := parseSign (pyTrim s).data
  if !sr.2.isEmpty && sr.2.all Char.isDigit then
    some (if sr.1 then -(digitsToNat sr.2 : Int) else (digitsToNat sr.2 : Int))
  else none

def pyInt : Val → Option Int
  | Val.vnum q => some (ratTrunc q)
  | Val.vstr s => parseIntStr s
  | Val.vbool b => some (if b then 1 else 0)
  | _ => none

def pyFloat : Val → Option ℚ
  | Val.vnum q => some q
  | Val.vstr s => parseFloat s
  | Val.vbool b => some (qOfNat (if b then 1 else 0))
  | _ => none

/-- `bsc5p_build_hms` from the source (`try`: any missing/non-numeric field
yields `None`). -/
def bsc5p_build_hms (xs : List (String × Val)) : Option String :=
  match pyInt (dGet xs "hoursRaJ2000"), pyInt (dGet xs "minutesRaJ2000"),
        pyFloat (dGet xs "secondsRaJ2000") with
  | some h, some m, some s => some (hms_to_str h m s)
  | _, _, _ => none

/-- `bsc5p_build_dms` from the source: `(sign or "+").strip() != "-"` (a
truthy non-string sign raises inside the `try`, yielding `None`). -/
def bsc5p_build_dms (xs : List (String × Val)) : Option String :=
  let sv := dGet xs "signDecJ2000"
  let signStr : Option String :=
    if sv.truthy = false then some "+"
    else
      match sv with
      | Val.vstr s => some (pyTrim s)
      | _ => none
  match signStr with
  | none => none
  | some ss =>
    let sign : Int := if ss ≠ "-" then 1 else -1
    match pyInt (dGet xs "degreesDecJ2000"), pyInt (dGet xs "minutesDecJ2000"),
          pyFloat (dGet xs "secondsDecJ2000") with
    | some d, some m, some s => some (dms_to_str sign d m s)
    | _, _, _ => none

/-- Python iteration over a value: lists yield elements, strings yield
single-character strings, dicts yield keys; numbers and booleans raise
`TypeError` (not caught anywhere in the bright-star parser). -/
def pyIter : Val → Except Unit (List Val)
  | Val.vstr s => Except.ok (s.data.map (fun c => Val.vstr (String.singleton c)))
  | Val.vlist xs => Except.ok xs
  | Val.vdict xs => Except.ok (xs.map (fun e => Val.vstr e.1))
  | _ => Except.error ()

/-- One iteration of the `extract_common_names` accumulation loop: keep the
stripped text after a `"NAME "` prefix when it is non-blank and not yet
collected. -/
def ecnStep (out : List String) (item : Val) : List String :=
  let t := pyTrim (pyStr item)
  if startsWithStr (upperStr t) "NAME " then
    let nm := pyTrim (dropStr t 5)
    if nm ≠ "" && !out.contains nm then out ++ [nm] else out
  else out

/-- `extract_common_names` from the source: entries of `names_alt or []`
whose upper-cased text starts with `"NAME "`, with the prefix removed,
blank results skipped, first-seen order, deduplicated. -/
def extract_common_names (names_alt : Val) : Except Unit (List String) :=
  match pyIter (if names_alt.truthy then names_alt else Val.vlist []) with
  | Except.error e => Except.error e
  | Except.ok items => Except.ok (items.foldl ecnStep [])

/-- The generic-word substrings of `choose_primary_en`'s score. -/
def genericWords : List String :=
  [" star", " nebula", " cluster", " galaxy", " variable", " a ", " b "]

def containsAux (n : List Char) : List Char → Bool
  | [] => n.isEmpty
  | c :: t => List.isPrefixOf n (c :: t) || containsAux n t

/-- Python `needle in hay` for strings. -/
def strContains (hay needle : String) : Bool := containsAux needle.data hay.data

/-- `len(n.split())`: whitespace-run tokenisation. -/
def pySplitWsCount (n : String) : Nat :=
  ((splitStr wsChar n).filter (fun t => t ≠ "")).length

/-- The score tuple `(generic, words, len)` of `choose_primary_en`. -/
def nameScore (n : String) : Bool × Nat × Nat :=
  (genericWords.any (fun w => strContains (lowerStr n) w), pySplitWsCount n, n.length)

/-- Python `<` on the score tuples (`False < True`). -/
def scoreLt (a b : Bool × Nat × Nat) : Bool :=
  (!a.1 && b.1) ||
  (a.1 == b.1 && (decide (a.2.1 < b.2.1) ||
    (a.2.1 == b.2.1 && decide (a.2.2 < b.2.2))))

/-- `cand.sort(key=score); cand[0]`: the stable sort keeps the earliest
element among those of minimal score, which is what this fold returns. -/
def chooseBestName : List String → Option String
  | [] => none
  | x :: xs =>
    some (xs.foldl (fun best n =>
      if scoreLt (nameScore n) (nameScore best) then n else best) x)

/-- `for f in fallbacks: if f: return f` over optional strings. -/
def firstTruthyStr : List (Option String) → Option String
  | [] => none
  | none :: rest => firstTruthyStr rest
  | some s :: rest => if s = "" then firstTruthyStr rest else some s

/-- `choose_primary_en` from the source. -/
def choose_primary_en (common_names : List String) (fallbacks : List (Option String)) : String :=
  let cand := common_names.filter (fun n => n ≠ "")
  match cand.find? (fun n => (koFind n).isSome) with
  | some n => n
  | none =>
    match chooseBestName cand with
    | some n => n
    | none => (firstTruthyStr fallbacks).getD ""

/-- Seen-set deduplication preserving first occurrences (the `aliases_en`
loop of the source). -/
def dedupeAux (seen : List String) : List String → List String
  | [] => []
  | x :: xs =>
    if seen.contains x then dedupeAux seen xs
    else x :: dedupeAux (x :: seen) xs

/-- `[primary_en] + [x for x in common_list if x != primary_en and x]`,
deduplicated in order. -/
def buildAliasesEn (primary : String) (common_list : List String) : List String :=
  dedupeAux [] (primary :: common_list.filter (fun x => x ≠ primary && x ≠ ""))

/-- Korean name of one English name: `KO_MAP.get(n) or eng_to_hangul(n)`. -/
def krOf (oracle : Oracle) (n : String) : String :=
  match koFind n with
  | some k => k
  | none => eng_to_hangul oracle n

/-- Identifier resolution of `normalize_bsc5p_known_schema`: first non-blank
of Bayer/Flamsteed, `HD <id>`, `SAO <id>`, DM, ADS, with the
`line:<lineNumber>` fallback. -/
def bsc5p_sid (xs : List (String × Val)) : String :=
  match firstStr [norm_str (dGet xs "bayerAndOrFlamsteed"),
      (norm_str (dGet xs "hdId")).map (fun h => "HD " ++ h),
      (norm_str (dGet xs "saoId")).map (fun h => "SAO " ++ h),
      norm_str (dGet xs "dmId"), norm_str (dGet xs "adsId")] with
  | some s => s
  | none => "line:" ++ pyStr (dGetD xs "lineNumber" (Val.vstr "?"))

/-- Primary English name of a bright-star row:
`norm_str(choose_primary_en(common, [bayer, sid])) or (bayer or sid)`. -/
def bsc5p_primary (xs : List (String × Val)) (common_list : List String) : String :=
  match norm_str (Val.vstr (choose_primary_en common_list
      [norm_str (dGet xs "bayerAndOrFlamsteed"), some (bsc5p_sid xs)])) with
  | some s => s
  | none =>
    match norm_str (dGet xs "bayerAndOrFlamsteed") with
    | some b => b
    | none => bsc5p_sid xs

/-- The record a surviving bright-star row is normalized to. -/
def bsc5p_rec (oracle : Oracle) (xs : List (String × Val)) (magnitude : Option ℚ)
    (common_list : List String) : CelestialRecord :=
  let primary_en := bsc5p_primary xs common_list
  let aliases_en := buildAliasesEn primary_en common_list
  { id := some (Val.vstr (bsc5p_sid xs)), catalog := some (Val.vstr "BrightStar"),
    name_en := some (Val.vstr primary_en),
    name_kr := some (Val.vstr (krOf oracle primary_en)),
    aliases_en := some (Val.vlist (aliases_en.map Val.vstr)),
    aliases_kr := some (Val.vlist ((aliases_en.map (krOf oracle)).map Val.vstr)),
    bayerFlamsteed := some (optStrVal (norm_str (dGet xs "bayerAndOrFlamsteed"))),
    ra := some (optStrVal (bsc5p_build_hms xs)),
    dec := some (optStrVal (bsc5p_build_dms xs)),
    magnitude := some (optNumVal magnitude),
    spectralType := some (optStrVal (norm_str (dGet xs "spectralType"))),
    constellation := some Val.vnull,
    type_ := none }

/-- One iteration of `normalize_bsc5p_known_schema`'s loop: `ok none` is the
`continue` of the two filters, `error` a raised exception (non-mapping row,
non-iterable truthy `namesAlt`). -/
def bsc5p_step (oracle : Oracle) (mag_threshold : Option ℚ) (commonnames_only : Bool)
    (row : Val) : Except Unit (Option CelestialRecord) :=
  match row with
  | Val.vdict xs =>
    let magnitude := float_or_none (dGet xs "visualMagnitude")
    if (match mag_threshold, magnitude with
        | some t, some q => qLtB t q
        | _, _ => false) then Except.ok none
    else
      match extract_common_names (dGet xs "namesAlt") with
      | Except.error e => Except.error e
      | Except.ok common_list =>
        if commonnames_only && common_list.isEmpty then Except.ok none
        else Except.ok (some (bsc5p_rec oracle xs magnitude common_list))
  | _ => Except.error ()

/-- `normalize_bsc5p_known_schema` from the source. -/
def normalize_bsc5p_known_schema (oracle : Oracle) (rows : List Val)
    (mag_threshold : Option ℚ) (commonnames_only : Bool) : Except Unit (List CelestialRecord) :=
  match rows.mapM (bsc5p_step oracle mag_threshold commonnames_only) with
  | Except.error e => Except.error e
  | Except.ok l => Except.ok (l.filterMap id)

/-- The type derivation of `build_solar_bodies`. -/
def solarType (en : String) : String :=
  if en ≠ "Ganymede" && en ≠ "Titan" && en ≠ "Pluto" then "Planet"
  else if en = "Ganymede" || en = "Titan" then "Moon"
  else "DwarfPlanet"

/-- `build_solar_bodies` from the source (its dicts carry no `magnitude`,
`aliases` or `spectralType` keys). -/
def build_solar_bodies : List CelestialRecord :=
  SOLAR_SYSTEM.map (fun p =>
    { id := some (Val.vstr ("planet:" ++ lowerStr p.1)),
      catalog := some (Val.vstr "SolarSystem"),
      name_en := some (Val.vstr p.1), name_kr := some (Val.vstr p.2),
      ra := some Val.vnull, dec := some Val.vnull,
      type_ := some (Val.vstr (solarType p.1)), constellation := some Val.vnull,
      magnitude := none, aliases_en := none, aliases_kr := none,
      bayerFlamsteed := none, spectralType := none })

/-- Membership of `(None, "")`, the emptiness test of `fill_missing`. -/
def Val.isEmptyish : Val → Bool
  | Val.vnull => true
  | Val.vstr s => decide (s = "")
  | _ => false

def emptyishO : Option Val → Bool
  | none => true
  | some v => v.isEmptyish

/-- Per-key body of `fill_missing`: keys absent from the patch are untouched;
a present value lands only on a missing/None/empty slot and only if itself
neither None nor empty. -/
def fillF (b p : Option Val) : Option Val :=
  match p with
  | none => b
  | some v => if emptyishO b && !v.isEmptyish then some v else b

/-- `fill_missing` from the source, over the fixed key universe of the three
parsers' dicts. -/
def fill_missing (base patch : CelestialRecord) : CelestialRecord :=
  { id := fillF base.id patch.id,
    catalog := fillF base.catalog patch.catalog,
    name_en := fillF base.name_en patch.name_en,
    name_kr := fillF base.name_kr patch.name_kr,
    ra := fillF base.ra patch.ra,
    dec := fillF base.dec patch.dec,
    magnitude := fillF base.magnitude patch.magnitude,
    type_ := fillF base.type_ patch.type_,
    constellation := fillF base.constellation patch.constellation,
    aliases_en := fillF base.aliases_en patch.aliases_en,
    aliases_kr := fillF base.aliases_kr patch.aliases_kr,
    bayerFlamsteed := fillF base.bayerFlamsteed patch.bayerFlamsteed,
    spectralType := fillF base.spectralType patch.spectralType }

/-- `item.get("id")` with the `if not i: continue` truthiness test (every
record the parsers emit carries a string id, so the key and the test are
modelled on strings). -/
def recIdStr (r : CelestialRecord) : Option String :=
  match r.id with
  | some (Val.vstr s) => if s = "" then none else some s
  | _ => none

/-- In-place update of the insertion-ordered dict `by_id`. -/
def assocUpdate (m : List (String × CelestialRecord)) (i : String)
    (r : CelestialRecord) : List (String × CelestialRecord) :=
  m.map (fun e => if e.1 = i then (i, r) else e)

/-- Insert-or-merge of one keyed record into `by_id`. -/
def mergeUpsert (m : List (String × CelestialRecord)) (i : String)
    (item : CelestialRecord) : List (String × CelestialRecord) :=
  match m.find? (fun e => e.1 == i) with
  | some e => assocUpdate m i (fill_missing e.2 item)
  | none => m ++ [(i, item)]

/-- One iteration of the merge loop of `main`. -/
def mergeStep (m : List (String × CelestialRecord)) (item : CelestialRecord) :
    List (String × CelestialRecord) :=
  match recIdStr item with
  | none => m
  | some i => mergeUpsert m i item

/-- The merge loop of `main`: `by_id` as an insertion-ordered association
list. -/
def merge_catalogs (items : List CelestialRecord) : List (String × CelestialRecord) :=
  items.foldl mergeStep []

/-- String stored under an optional field, when it is one. -/
def ovStr : Option Val → Option String
  | some (Val.vstr s) => some s
  | _ => none

/-- `sort_key`'s first component: `o.get("catalog") or ""`. -/
def sortCat (r : CelestialRecord) : String := (ovStr r.catalog).getD ""

/-- `sort_key`'s second component: magnitude with `99.0` for missing/None
(every produced record stores a number or None there). -/
def sortMag (r : CelestialRecord) : ℚ :=
  match r.magnitude with
  | some (Val.vnum q) => q
  | _ => qOfNat 99

/-- `sort_key`'s third component: `o.get("name_en") or ""`. -/
def sortName (r : CelestialRecord) : String := (ovStr r.name_en).getD ""

/-- Comparison for the final stable sort by
`(catalog, magnitude ?? 99.0, name_en ?? "")`. -/
def sortLe (a b : CelestialRecord) : Bool :=
  if sortCat a ≠ sortCat b then listLtB (sortCat a).data (sortCat b).data
  else if sortMag a ≠ sortMag b then qLtB (sortMag a) (sortMag b)
  else !listLtB (sortName b).data (sortName a).data

/-- Stable insertion into a sorted list (equal keys keep earlier-inserted
elements first, matching the stability of the source's sort). -/
def insertSorted (le : CelestialRecord → CelestialRecord → Bool)
    (x : CelestialRecord) : List CelestialRecord → List CelestialRecord
  | [] => [x]
  | y :: ys => if le x y then x :: y :: ys else y :: insertSorted le x ys

/-- Stable sort by `le` (insertion sort: structural, so concrete pipelines
evaluate inside the kernel; order-insensitive up to the claims proved here). -/
def stableSortBy (le : CelestialRecord → CelestialRecord → Bool) :
    List CelestialRecord → List CelestialRecord
  | [] => []
  | x :: xs => insertSorted le x (stableSortBy le xs)

/-- The in-memory pipeline of `main` after JSON loading: normalize the two
sources, merge with the solar table in the fixed order, sort. -/
def run_pipeline (oracle : Oracle) (messier_rows bsc5p_rows : List Val)
    (mag_thr : Option ℚ) (commonnames_only : Bool) : Except Unit (List CelestialRecord) :=
  match normalize_messier_simple oracle messier_rows with
  | Except.error e => Except.error e
  | Except.ok messier =>
    match normalize_bsc5p_known_schema oracle bsc5p_rows mag_thr commonnames_only with
    | Except.error e => Except.error e
    | Except.ok bright =>
      let merged := (merge_catalogs (messier ++ bright ++ build_solar_bodies)).map
        (fun e => e.2)
      Except.ok (stableSortBy sortLe merged)

def strListOf : List Val → Option (List String)
  | [] => some []
  | Val.vstr s :: rest => (strListOf rest).map (fun l => s :: l)
  | _ => none

/-- String list stored under an optional field, when it is one. -/
def ovStrList : Option Val → Option (List String)
  | some (Val.vlist xs) => strListOf xs
  | _ => none

/-- Number stored under an optional field, when it is one. -/
def ovNum : Option Val → Option ℚ
  | some (Val.vnum q) => some q
  | _ => none

/-- The key holds Python `None`. -/
def isNullV : Option Val → Bool
  | some Val.vnull => true
  | _ => false

/-- The input record of the spec's Messier parse scenario. -/
def messierScenarioRow : List (String × Val) :=
  [("name", Val.vstr "M1, Crab Nebula."),
   ("coordinates", Val.vstr "RA 05h 34.5m, Dec +22° 01'"),
   ("magnitude", Val.vnum (mkRat 42 5))]

/-- C2: for the Messier input record
`name = "M1, Crab Nebula."`, `coordinates = "RA 05h 34.5m, Dec +22° 01'"`,
`magnitude = 8.4`, the Messier parser produces `id = "M1"`,
`name_en = "Crab Nebula"`, `ra = "05:34:30.00"` (the fractional minutes `.5`
accumulated into 30 seconds), `dec = "+22:01:00.00"`, `magnitude = 8.4` —
whatever the state of the transliteration resource. -/
theorem C2_messier_parse_scenario (oracle : Oracle) :
    parse_messier_row oracle (Val.vdict messierScenarioRow) =
      Except.ok (parse_messier_dict oracle messierScenarioRow) ∧
    ovStr (parse_messier_dict oracle messierScenarioRow).id = some "M1" ∧
    ovStr (parse_messier_dict oracle messierScenarioRow).name_en = some "Crab Nebula" ∧
    ovStr (parse_messier_dict oracle messierScenarioRow).ra = some "05:34:30.00" ∧
    ovStr (parse_messier_dict oracle messierScenarioRow).dec = some "+22:01:00.00" ∧
    ovNum (parse_messier_dict oracle messierScenarioRow).magnitude = some (mkRat 42 5) ∧
    (mkRat 42 5 : ℚ) = 42 / 5 := by
  refine ⟨rfl, rfl, rfl, rfl, rfl, rfl, ?_⟩
  rw [Rat.mkRat_eq_div]
  norm_num

/-- C9: in the solar-system table the derived type is `"Moon"` exactly for
`Ganymede` and `Titan`, `"DwarfPlanet"` exactly for `Pluto`, and `"Planet"`
for everything else — in particular for the satellites `Moon`, `Io`,
`Callisto` and `Europa`. -/
theorem C9_solar_types :
    build_solar_bodies.all (fun r =>
      ((ovStr r.type_ == some "Moon") ==
        (ovStr r.name_en == some "Ganymede" || ovStr r.name_en == some "Titan")) &&
      ((ovStr r.type_ == some "DwarfPlanet") == (ovStr r.name_en == some "Pluto")) &&
      (!(ovStr r.name_en == some "Ganymede" || ovStr r.name_en == some "Titan" ||
         ovStr r.name_en == some "Pluto") || ovStr r.type_ == some "Moon" ||
         ovStr r.type_ == some "DwarfPlanet") &&
      ((ovStr r.name_en == some "Ganymede" || ovStr r.name_en == some "Titan" ||
        ovStr r.name_en == some "Pluto") || ovStr r.type_ == some "Planet")) = true ∧
    (["Moon", "Io", "Callisto", "Europa"].all (fun n =>
      build_solar_bodies.any (fun r =>
        ovStr r.name_en == some n && ovStr r.type_ == some "Planet"))) = true := by
  exact ⟨by decide, by decide⟩

/-- `parseFloatOrNull` as the specification words it (for comparison with
the source's `float_or_none`): null for null, blank, or the token "none";
otherwise strip a single LEADING "+" and parse; null on parse failure. -/
def parseFloatOrNull_spec (x : Val) : Option ℚ :=
  match x with
  | Val.vnull => none
  | _ =>
    let s := pyStr x
    if pyTrim s = "" then none
    else if lowerStr s = "none" then none
    else parseFloat (if startsWithStr s "+" then dropStr s 1 else s)

/-- `parseFloatOrNull` as amended: identical to the spec's description
except that ALL "+" characters are removed, not only a leading one. -/
def parseFloatOrNull_amended (x : Val) : Option ℚ :=
  match x with
  | Val.vnull => none
  | _ =>
    let s := pyStr x
    if pyTrim s = "" then none
    else if lowerStr s = "none" then none
    else parseFloat (stripAllPlus s)

/-- C7, counterexample: on `"3+4"` the spec's leading-plus-only reading
yields null (the string does not parse), but the code removes every plus
sign and returns 34. -/
theorem C7_counterexample :
    float_or_none (Val.vstr "3+4") = some (mkRat 34 1) ∧
    (mkRat 34 1 : ℚ) = 34 ∧
    parseFloatOrNull_spec (Val.vstr "3+4") = none := by
  refine ⟨by decide, ?_, by decide⟩
  rw [Rat.mkRat_eq_div]
  norm_num

/-- C7 (amended): the float parser returns null for null, blank-after-trim,
or the token "none" (case-insensitive); otherwise it removes every "+"
character (not only a leading one) and parses, returning null on any parse
failure — stated as extensional equality with the amended description. -/
theorem C7_amended_float_or_none (x : Val) :
    float_or_none x = parseFloatOrNull_amended x := by
  cases x <;> rfl

/-- C3, counterexample: with the resource present but failing on every
token, `"Sirius A"` is transliterated to `"SiriusA"` — neither the
rule-based syllable mapper's output nor the original string. -/
theorem C3_counterexample :
    eng_to_hangul (some (fun _ => none)) "Sirius A" ≠ eng_to_hangul_simple "Sirius A" ∧
    eng_to_hangul (some (fun _ => none)) "Sirius A" ≠ "Sirius A" := by
  exact ⟨by decide, by decide⟩

/-- C3 (amended): the transliterator is total and never consults the
rule-based syllable mapper: with the resource unavailable the original
string is returned unchanged, and with the resource present each token is
converted independently — a failing token is kept verbatim — and the tokens
are joined without separator. -/
theorem C3_amended_fallbacks :
    (∀ name : String, eng_to_hangul none name = name) ∧
    (∀ (h : String → Option String) (name : String), name ≠ "" → pyTrim name ≠ "" →
      eng_to_hangul (some h) name =
        String.join ((splitTokens (pyTrim name)).map (fun t => (h t).getD t))) := by
  constructor
  · intro name
    by_cases hn : name = ""
    · rw [hn]; rfl
    · simp [eng_to_hangul, hn]
  · intro h name h1 h2
    simp [eng_to_hangul, h1, h2]

/-- Witness for the amended C3 theorem at a concrete name. -/
theorem C3_amended_fallbacks_witness :
    eng_to_hangul none "Sirius A" = "Sirius A" ∧
    eng_to_hangul (some (fun _ => none)) "Sirius A" =
      String.join ((splitTokens (pyTrim "Sirius A")).map
        (fun t => ((fun _ => none) t : Option String).getD t)) := by
  exact ⟨C3_amended_fallbacks.1 "Sirius A",
         C3_amended_fallbacks.2 (fun _ => none) "Sirius A" (by decide) (by decide)⟩

/-- The key universe of the parsers' dicts, for quantifying over fields. -/
inductive SField where
  | id | catalog | name_en | name_kr | ra | dec | magnitude | type_
  | constellation | aliases_en | aliases_kr | bayerFlamsteed | spectralType

/-- Generic field access (`merged.get(k)`). -/
def CelestialRecord.fget (r : CelestialRecord) : SField → Option Val
  | SField.id => r.id
  | SField.catalog => r.catalog
  | SField.name_en => r.name_en
  | SField.name_kr => r.name_kr
  | SField.ra => r.ra
  | SField.dec => r.dec
  | SField.magnitude => r.magnitude
  | SField.type_ => r.type_
  | SField.constellation => r.constellation
  | SField.aliases_en => r.aliases_en
  | SField.aliases_kr => r.aliases_kr
  | SField.bayerFlamsteed => r.bayerFlamsteed
  | SField.spectralType => r.spectralType

theorem fill_missing_fget (base patch : CelestialRecord) (f : SField) :
    (fill_missing base patch).fget f = fillF (base.fget f) (patch.fget f) := by
  cases f <;> rfl

/-- C1: merging two records sharing an id is field-by-field
fill-missing-only — a non-null/non-empty value of the later record is copied
only onto a null/empty slot and an existing non-empty value is never
overwritten; in particular a null `dec` is filled by the later record's
`"+22:00:00.00"` while a non-null `dec` survives any later value. -/
theorem C1_merge_fill_only :
    (∀ (base patch : CelestialRecord) (f : SField) (v : Val),
      base.fget f = some v → v.isEmptyish = false →
      (fill_missing base patch).fget f = base.fget f) ∧
    (∀ (base patch : CelestialRecord) (f : SField) (w : Val),
      emptyishO (base.fget f) = true → patch.fget f = some w → w.isEmptyish = false →
      (fill_missing base patch).fget f = some w) ∧
    (∀ (A B : CelestialRecord) (i : String),
      recIdStr A = some i → recIdStr B = some i →
      A.dec = some Val.vnull → B.dec = some (Val.vstr "+22:00:00.00") →
      ∃ r, merge_catalogs [A, B] = [(i, r)] ∧ r.dec = some (Val.vstr "+22:00:00.00")) ∧
    (∀ (A B : CelestialRecord) (i : String) (d : String),
      recIdStr A = some i → recIdStr B = some i →
      A.dec = some (Val.vstr d) → d ≠ "" →
      ∃ r, merge_catalogs [A, B] = [(i, r)] ∧ r.dec = some (Val.vstr d)) := by
  have hstep : ∀ (A B : CelestialRecord) (i : String),
      recIdStr A = some i → recIdStr B = some i →
      merge_catalogs [A, B] = [(i, fill_missing A B)] := by
    intro A B i hA hB
    show mergeStep (mergeStep [] A) B = _
    rw [show mergeStep [] A = [(i, A)] from by simp [mergeStep, mergeUpsert, hA]]
    simp [mergeStep, mergeUpsert, hB, assocUpdate]
  refine ⟨?_, ?_, ?_, ?_⟩
  · intro base patch f v hb he
    rw [fill_missing_fget, hb]
    cases hp : patch.fget f with
    | none => simp [fillF]
    | some w => simp [fillF, emptyishO, he]
  · intro base patch f w hb hp he
    rw [fill_missing_fget, hp]
    simp [fillF, hb, he]
  · intro A B i hA hB hAd hBd
    refine ⟨fill_missing A B, hstep A B i hA hB, ?_⟩
    show fillF A.dec B.dec = _
    rw [hAd, hBd]
    rfl
  · intro A B i d hA hB hAd hd
    refine ⟨fill_missing A B, hstep A B i hA hB, ?_⟩
    show fillF A.dec B.dec = _
    rw [hAd]
    cases hp : B.dec with
    | none => rfl
    | some w => simp [fillF, emptyishO, Val.isEmptyish, hd]

/-- Record A of the C1 witness: id `X`, `dec` null. -/
def c1recA : CelestialRecord :=
  { id := some (Val.vstr "X"), catalog := some (Val.vstr "Messier"),
    name_en := some (Val.vstr "A"), name_kr := some (Val.vstr "에이"),
    ra := some Val.vnull, dec := some Val.vnull, magnitude := some Val.vnull,
    type_ := some Val.vnull, constellation := some Val.vnull,
    aliases_en := none, aliases_kr := none, bayerFlamsteed := none,
    spectralType := none }

/-- Record B of the C1 witness: same id, `dec = "+22:00:00.00"`. -/
def c1recB : CelestialRecord :=
  { id := some (Val.vstr "X"), catalog := some (Val.vstr "BrightStar"),
    name_en := some (Val.vstr "B"), name_kr := some (Val.vstr "비"),
    ra := some Val.vnull, dec := some (Val.vstr "+22:00:00.00"),
    magnitude := some Val.vnull,
    type_ := none, constellation := some Val.vnull,
    aliases_en := none, aliases_kr := none, bayerFlamsteed := none,
    spectralType := none }

/-- Witness for C1 at the concrete pair of records. -/
theorem C1_merge_fill_only_witness :
    (∃ r, merge_catalogs [c1recA, c1recB] = [("X", r)] ∧
      r.dec = some (Val.vstr "+22:00:00.00")) ∧
    (∃ r, merge_catalogs [c1recB, c1recA] = [("X", r)] ∧
      r.dec = some (Val.vstr "+22:00:00.00")) := by
  exact ⟨C1_merge_fill_only.2.2.1 c1recA c1recB "X" rfl rfl rfl rfl,
         C1_merge_fill_only.2.2.2 c1recB c1recA "X" "+22:00:00.00" rfl rfl rfl
           (by decide)⟩

theorem strListOf_map_vstr (l : List String) :
    strListOf (l.map Val.vstr) = some l := by
  induction l with
  | nil => rfl
  | cons x xs ih => simp [strListOf, ih]

theorem dedupeAux_sublist (l : List String) :
    ∀ seen, (dedupeAux seen l).Sublist l := by
  induction l with
  | nil => intro seen; exact List.Sublist.refl _
  | cons x xs ih =>
    intro seen
    show (if seen.contains x then dedupeAux seen xs
          else x :: dedupeAux (x :: seen) xs).Sublist (x :: xs)
    cases hc : seen.contains x
    · simp only [hc, Bool.false_eq_true, if_false]
      exact (ih (x :: seen)).cons₂ x
    · simp only [hc, if_true]
      exact (ih seen).cons x

theorem dedupeAux_not_seen (l : List String) :
    ∀ seen x, x ∈ dedupeAux seen l → seen.contains x = false := by
  induction l with
  | nil => intro seen x hx; simp [dedupeAux] at hx
  | cons y ys ih =>
    intro seen x hx
    rw [show dedupeAux seen (y :: ys) =
        (if seen.contains y then dedupeAux seen ys
         else y :: dedupeAux (y :: seen) ys) from rfl] at hx
    cases hc : seen.contains y
    · rw [hc] at hx
      simp only [Bool.false_eq_true, if_false, List.mem_cons] at hx
      rcases hx with h1 | h2
      · rw [h1]; exact hc
      · have h3 := ih (y :: seen) x h2
        simp only [List.contains_cons, Bool.or_eq_false_iff] at h3
        exact h3.2
    · rw [hc] at hx
      simp only [if_true] at hx
      exact ih seen x hx

theorem dedupeAux_nodup (l : List String) :
    ∀ seen, (dedupeAux seen l).Nodup := by
  induction l with
  | nil => intro seen; simp [dedupeAux]
  | cons y ys ih =>
    intro seen
    show (if seen.contains y then dedupeAux seen ys
          else y :: dedupeAux (y :: seen) ys).Nodup
    cases hc : seen.contains y
    · simp only [hc, Bool.false_eq_true, if_false]
      rw [List.nodup_cons]
      refine ⟨?_, ih (y :: seen)⟩
      intro hmem
      have h3 := dedupeAux_not_seen ys (y :: seen) y hmem
      simp [List.contains_cons] at h3
    · simp only [hc, if_true]
      exact ih seen

theorem dedupeAux_eq_self (l : List String) :
    ∀ seen, l.Nodup → (∀ x ∈ l, seen.contains x = false) → dedupeAux seen l = l := by
  induction l with
  | nil => intro seen _ _; rfl
  | cons y ys ih =>
    intro seen hnd hns
    rw [List.nodup_cons] at hnd
    have hy : seen.contains y = false := hns y (List.mem_cons_self y ys)
    show (if seen.contains y then dedupeAux seen ys
          else y :: dedupeAux (y :: seen) ys) = y :: ys
    rw [hy]
    simp only [Bool.false_eq_true, if_false]
    congr 1
    apply ih (y :: seen) hnd.2
    intro x hx
    rw [List.contains_cons, Bool.or_eq_false_iff]
    refine ⟨?_, hns x (List.mem_cons_of_mem y hx)⟩
    rw [beq_eq_false_iff_ne]
    intro he
    exact hnd.1 (he ▸ hx)

theorem append_one_inv (out : List String) (nm : String)
    (h1 : out.Nodup) (h2 : ∀ x ∈ out, x ≠ "") :
    (if nm ≠ "" && !out.contains nm then out ++ [nm] else out).Nodup ∧
    ∀ x ∈ (if nm ≠ "" && !out.contains nm then out ++ [nm] else out), x ≠ "" := by
  cases hc : (nm ≠ "" && !out.contains nm)
  · simp only [hc, Bool.false_eq_true, if_false]
    exact ⟨h1, h2⟩
  · simp only [hc, if_true]
    rw [Bool.and_eq_true] at hc
    have hne : nm ≠ "" := by simpa using hc.1
    have hmem : out.contains nm = false := by simpa using hc.2
    constructor
    · rw [List.nodup_append]
      refine ⟨h1, List.nodup_singleton nm, ?_⟩
      intro a ha hb
      rw [List.mem_singleton] at hb
      subst hb
      rw [← List.elem_iff] at ha
      rw [show out.contains a = out.elem a from rfl] at hmem
      rw [ha] at hmem
      exact absurd hmem (by simp)
    · intro x hx
      rw [List.mem_append, List.mem_singleton] at hx
      rcases hx with h | h
      · exact h2 x h
      · rw [h]; exact hne

theorem ecnStep_inv (out : List String) (item : Val)
    (h1 : out.Nodup) (h2 : ∀ x ∈ out, x ≠ "") :
    (ecnStep out item).Nodup ∧ ∀ x ∈ ecnStep out item, x ≠ "" := by
  cases hc : startsWithStr (upperStr (pyTrim (pyStr item))) "NAME "
  · have he : ecnStep out item = out := by simp [ecnStep, hc]
    rw [he]
    exact ⟨h1, h2⟩
  · have he : ecnStep out item =
        (if pyTrim (dropStr (pyTrim (pyStr item)) 5) ≠ "" &&
            !out.contains (pyTrim (dropStr (pyTrim (pyStr item)) 5))
         then out ++ [pyTrim (dropStr (pyTrim (pyStr item)) 5)] else out) := by
      simp [ecnStep, hc]
    rw [he]
    exact append_one_inv out _ h1 h2

theorem ecn_foldl_inv (items : List Val) :
    ∀ out : List String, out.Nodup → (∀ x ∈ out, x ≠ "") →
      (items.foldl ecnStep out).Nodup ∧ ∀ x ∈ items.foldl ecnStep out, x ≠ "" := by
  induction items with
  | nil => intro out h1 h2; exact ⟨h1, h2⟩
  | cons i is ih =>
    intro out h1 h2
    rw [List.foldl_cons]
    obtain ⟨h1', h2'⟩ := ecnStep_inv out i h1 h2
    exact ih _ h1' h2'

/-- The candidate list returned by `extract_common_names` never holds a
duplicate or a blank entry (the loop appends `nm` only under
`nm and nm not in out`). -/
theorem extract_common_names_nodup (names_alt : Val) (common : List String)
    (h : extract_common_names names_alt = Except.ok common) :
    common.Nodup ∧ ∀ x ∈ common, x ≠ "" := by
  unfold extract_common_names at h
  cases hp : pyIter (if names_alt.truthy then names_alt else Val.vlist []) with
  | error e =>
    rw [hp] at h
    exact absurd (show Except.error e = Except.ok common from h) (by simp)
  | ok items =>
    rw [hp] at h
    have h2 : (Except.ok (items.foldl ecnStep []) : Except Unit (List String)) =
        Except.ok common := h
    injection h2 with h3
    rw [← h3]
    exact ecn_foldl_inv items [] List.nodup_nil (by simp)

/-- The `aliases_en` loop output in closed form: when `common` is
duplicate-free with no blank entry (as `extract_common_names` guarantees),
it is the primary followed by exactly the candidates other than the
primary, in their original order. -/
theorem buildAliasesEn_eq (primary : String) (common : List String)
    (hnd : common.Nodup) (hne : ∀ x ∈ common, x ≠ "") :
    buildAliasesEn primary common = primary :: common.filter (fun x => x ≠ primary) := by
  show dedupeAux [] (primary :: common.filter (fun x => x ≠ primary && x ≠ "")) = _
  rw [show dedupeAux [] (primary :: common.filter (fun x => x ≠ primary && x ≠ "")) =
      primary :: dedupeAux [primary] (common.filter (fun x => x ≠ primary && x ≠ ""))
      from rfl]
  congr 1
  have hf : common.filter (fun x => x ≠ primary && x ≠ "") =
      common.filter (fun x => x ≠ primary) := by
    apply List.filter_congr
    intro x hx
    simp [hne x hx]
  rw [hf]
  apply dedupeAux_eq_self
  · exact hnd.filter _
  · intro x hx
    rw [List.mem_filter] at hx
    have hxp : x ≠ primary := by simpa using hx.2
    simp [List.contains_cons, hxp]

/-- The bright-star row of the C6 counterexample: two alternate names whose
localizations coincide (the second is already the override table's Korean
rendering of the first). -/
def c6xs : List (String × Val) :=
  [("namesAlt", Val.vlist [Val.vstr "NAME Sirius", Val.vstr "NAME 시리우스"])]

def c6row : Val := Val.vdict c6xs

/-- C6, counterexample: the parser output for `c6row` has
`aliases_kr = ["시리우스", "시리우스"]`, which contains a duplicate — the
claim's "no duplicate entries" fails for `aliases_kr`. -/
theorem C6_counterexample :
    ((normalize_bsc5p_known_schema none [c6row] none false).toOption.getD []).map
      (fun r => ovStrList r.aliases_kr) = [some ["시리우스", "시리우스"]] ∧
    ¬ (["시리우스", "시리우스"] : List String).Nodup := by
  exact ⟨by decide, by decide⟩

/-- C6 (amended): for every record the bright-star parser emits,
`aliases_en` is the primary name followed by exactly the remaining
extracted common-name candidates — a duplicate-free list, and the tail is
precisely the candidate list (itself duplicate-free) with the primary
filtered out, so every remaining distinct candidate appears, in its
original order; `aliases_kr` is its element-wise localization — same
length, primary's localization first — and may itself contain duplicates. -/
theorem C6_amended_alias_structure (oracle : Oracle) (thr : Option ℚ) (co : Bool)
    (xs : List (String × Val)) (rec : CelestialRecord)
    (h : bsc5p_step oracle thr co (Val.vdict xs) = Except.ok (some rec)) :
    ∃ (prim : String) (rest : List String) (common : List String),
      extract_common_names (dGet xs "namesAlt") = Except.ok common ∧
      common.Nodup ∧
      ovStr rec.name_en = some prim ∧
      ovStrList rec.aliases_en = some (prim :: rest) ∧
      (prim :: rest).Nodup ∧
      rest = common.filter (fun x => x ≠ prim) ∧
      ovStrList rec.aliases_kr = some ((prim :: rest).map (krOf oracle)) := by
  rw [show bsc5p_step oracle thr co (Val.vdict xs) =
      (if (match thr, float_or_none (dGet xs "visualMagnitude") with
           | some t, some q => qLtB t q
           | _, _ => false) then Except.ok none
       else
        match extract_common_names (dGet xs "namesAlt") with
        | Except.error e => Except.error e
        | Except.ok common_list =>
          if co && common_list.isEmpty then Except.ok none
          else Except.ok (some (bsc5p_rec oracle xs
            (float_or_none (dGet xs "visualMagnitude")) common_list))) from rfl] at h
  split at h
  · exact absurd h (by simp)
  · cases hext : extract_common_names (dGet xs "namesAlt") with
    | error e => rw [hext] at h; exact absurd h (by simp)
    | ok common =>
      rw [hext] at h
      simp only [] at h
      split at h
      · exact absurd h (by simp)
      · have hrec : rec = bsc5p_rec oracle xs
            (float_or_none (dGet xs "visualMagnitude")) common := by
          injection h with h1
          injection h1 with h2
          exact h2.symm
        subst hrec
        obtain ⟨hnd', hne'⟩ := extract_common_names_nodup (dGet xs "namesAlt") common hext
        refine ⟨bsc5p_primary xs common,
          common.filter (fun x => x ≠ bsc5p_primary xs common),
          common, rfl, hnd', rfl, ?_, ?_, rfl, ?_⟩
        · show strListOf ((buildAliasesEn (bsc5p_primary xs common) common).map Val.vstr) = _
          rw [strListOf_map_vstr, buildAliasesEn_eq _ _ hnd' hne']
        · rw [List.nodup_cons]
          refine ⟨?_, hnd'.filter _⟩
          intro hmem
          rw [List.mem_filter] at hmem
          have h5 := hmem.2
          simp at h5
        · show strListOf (((buildAliasesEn (bsc5p_primary xs common) common).map
            (krOf oracle)).map Val.vstr) = _
          rw [strListOf_map_vstr, buildAliasesEn_eq _ _ hnd' hne']

/-- Witness for the amended C6 theorem at the concrete row `c6xs`. -/
theorem C6_amended_alias_structure_witness :
    ∃ (prim : String) (rest : List String) (common : List String),
      extract_common_names (dGet c6xs "namesAlt") = Except.ok common ∧
      common.Nodup ∧
      ovStr (bsc5p_rec none c6xs (float_or_none (dGet c6xs "visualMagnitude"))
        ["Sirius", "시리우스"]).name_en = some prim ∧
      ovStrList (bsc5p_rec none c6xs (float_or_none (dGet c6xs "visualMagnitude"))
        ["Sirius", "시리우스"]).aliases_en = some (prim :: rest) ∧
      (prim :: rest).Nodup ∧
      rest = common.filter (fun x => x ≠ prim) ∧
      ovStrList (bsc5p_rec none c6xs (float_or_none (dGet c6xs "visualMagnitude"))
        ["Sirius", "시리우스"]).aliases_kr = some ((prim :: rest).map (krOf none)) := by
  exact C6_amended_alias_structure none none false c6xs _ rfl

/-- C8, counterexample: a batch holding one non-mapping entry aborts whole —
the recovery branch itself starts with `row.get` and re-raises — and a
mapping row with an unparsable `name` field is emitted through the normal
path with its coordinates intact, not replaced by a minimal record with null
coordinates. -/
theorem C8_counterexample :
    (normalize_messier_simple none [Val.vstr "bad", Val.vdict []]).isOk = false ∧
    ((normalize_messier_simple none
        [Val.vdict [("name", Val.vnum (mkRat 5 1)),
                    ("coordinates", Val.vstr "RA 1h 2m")]]).toOption.getD []).map
      (fun r => ovStr r.ra) = [some "01:02:00.00"] := by
  exact ⟨by decide, by decide⟩

/-- C8 (amended): on a batch of mapping rows the Messier parser is total —
no record is discarded or aborts the batch, and each row yields one full
record (malformed fields degrade within it); the per-record recovery branch
is unreachable for mapping rows, while a non-mapping entry raises in both
the parse and the recovery branch, aborting the batch. -/
theorem C8_amended_per_record (oracle : Oracle) (rows : List Val)
    (h : ∀ row ∈ rows, ∃ xs, row = Val.vdict xs) :
    ∃ out, normalize_messier_simple oracle rows = Except.ok out ∧
      out.length = rows.length := by
  induction rows with
  | nil => exact ⟨[], rfl, rfl⟩
  | cons r rs ih =>
    obtain ⟨xs, hxs⟩ := h r (List.mem_cons_self r rs)
    obtain ⟨out', hout', hlen⟩ := ih (fun row hr => h row (List.mem_cons_of_mem r hr))
    refine ⟨parse_messier_dict oracle xs :: out', ?_, by simp [hlen]⟩
    rw [hxs]
    show List.mapM _ (Val.vdict xs :: rs) = _
    rw [List.mapM_cons]
    have hout2 : List.mapM (fun row =>
        match parse_messier_row oracle row with
        | Except.ok r => Except.ok r
        | Except.error _ => messier_fallback oracle row) rs = Except.ok out' := hout'
    rw [hout2]
    rfl

/-- Witness for the amended C8 theorem at a concrete one-row batch. -/
theorem C8_amended_per_record_witness :
    ∃ out, normalize_messier_simple none [Val.vdict []] = Except.ok out ∧
      out.length = [Val.vdict ([] : List (String × Val))].length := by
  exact C8_amended_per_record none [Val.vdict []]
    (fun row hr => ⟨[], by rw [List.mem_singleton] at hr; exact hr⟩)

theorem qLtB_iff (a b : ℚ) : qLtB a b = true ↔ a < b := by
  have hchar : a < b ↔ a.num * (b.den : Int) < b.num * (a.den : Int) := by
    rw [show a < b ↔ (a.num : ℚ) / (a.den : ℚ) < (b.num : ℚ) / (b.den : ℚ) from by
      rw [Rat.num_div_den, Rat.num_div_den]]
    rw [div_lt_div_iff₀ (by exact_mod_cast a.pos) (by exact_mod_cast b.pos)]
    constructor
    · intro h; exact_mod_cast h
    · intro h; exact_mod_cast h
  rw [qLtB, decide_eq_true_eq, hchar]

theorem qLtB_false_iff (a b : ℚ) : qLtB a b = false ↔ b ≤ a := by
  rw [← not_lt, ← qLtB_iff]
  cases qLtB a b <;> simp

theorem mk_eq_empty_iff (l : List Char) : String.mk l = "" ↔ l = [] := by
  constructor
  · intro h
    have h2 := congrArg String.data h
    exact h2
  · intro h
    rw [h]

theorem str_ne_empty_data (s : String) (h : s.data ≠ []) : s ≠ "" := by
  intro he
  rw [he] at h
  exact h rfl

theorem append_ne_empty_left (s t : String) (h : s.data ≠ []) : s ++ t ≠ "" := by
  apply str_ne_empty_data
  rw [String.data_append]
  intro hc
  exact h (List.append_eq_nil.mp hc).1

theorem str_eq_empty_of_data (s : String) (h : s.data = []) : s = "" := by
  obtain ⟨d⟩ := s
  rw [show (String.mk d).data = d from rfl] at h
  rw [h]

theorem norm_str_some_ne (x : Val) (s : String) (h : norm_str x = some s) : s ≠ "" := by
  have hgen : ∀ (v : Val), (if pyTrim (pyStr v) = "" then none
      else some (String.mk ((pyTrim (pyStr v)).data.map normChar))) = some s → s ≠ "" := by
    intro v hv
    split at hv
    · exact absurd hv (by simp)
    · injection hv with h1
      rw [← h1]
      intro hc
      have hdata := congrArg String.data hc
      rename_i hguard
      exact hguard (str_eq_empty_of_data _ (List.map_eq_nil_iff.mp hdata))
  cases x with
  | vnull => simp [norm_str] at h
  | vbool b => exact hgen (Val.vbool b) h
  | vnum q => exact hgen (Val.vnum q) h
  | vstr t => exact hgen (Val.vstr t) h
  | vlist l => exact hgen (Val.vlist l) h
  | vdict d => exact hgen (Val.vdict d) h

theorem messier_mid_ne (raw : Option String) : messier_mid raw ≠ "" := by
  unfold messier_mid
  cases h : messier_id_search (raw.getD "") with
  | some n => exact append_ne_empty_left "M" (Nat.repr n) (by decide)
  | none => decide

theorem messier_mid_shape (raw : Option String) :
    messier_mid raw = "M?" ∨ ∃ n : Nat, messier_mid raw = "M" ++ Nat.repr n := by
  unfold messier_mid
  cases h : messier_id_search (raw.getD "") with
  | some n => exact Or.inr ⟨n, rfl⟩
  | none => exact Or.inl rfl

theorem messier_name_en_ne (raw nef : Option String) (mid : String)
    (hf : ∀ s, nef = some s → s ≠ "") (hm : mid ≠ "") :
    messier_name_en raw nef mid ≠ "" := by
  unfold messier_name_en
  cases nef with
  | some s => exact hf s rfl
  | none =>
    cases h : messier_common_name raw with
    | some s =>
      by_cases hs : s = ""
      · simp [hs, hm]
      · simp [hs]
    | none => exact hm

theorem koFind_some_ne (n k : String) (h : koFind n = some k) : k ≠ "" := by
  unfold koFind at h
  cases hf : KO_MAP.find? (fun p => p.1 == n) with
  | none => rw [hf] at h; exact absurd h (by simp)
  | some p =>
    rw [hf] at h
    have hmem := List.mem_of_find?_eq_some hf
    have hall : KO_MAP.all (fun p => !(p.2 == "")) = true := by decide
    have h2 := List.all_eq_true.mp hall p hmem
    have h3 : p.2 = k := by
      have h4 : some p.2 = some k := h
      injection h4
    rw [← h3]
    intro hc
    rw [hc] at h2
    simp at h2

theorem eng_to_hangul_none_id (s : String) : eng_to_hangul none s = s := by
  by_cases h : s = ""
  · rw [h]; rfl
  · simp [eng_to_hangul, h]

theorem krOf_none_ne (n : String) (hn : n ≠ "") : krOf none n ≠ "" := by
  unfold krOf
  cases h : koFind n with
  | some k => exact koFind_some_ne n k h
  | none => rw [eng_to_hangul_none_id]; exact hn

theorem messier_name_kr_ne (nkf : Option String) (name_en : String)
    (hf : ∀ s, nkf = some s → s ≠ "") (hn : name_en ≠ "") :
    messier_name_kr none nkf name_en ≠ "" := by
  unfold messier_name_kr
  cases nkf with
  | some s => exact hf s rfl
  | none =>
    cases h : koFind name_en with
    | some k => exact koFind_some_ne name_en k h
    | none => rw [eng_to_hangul_none_id]; exact hn

theorem firstStr_some_ne (l : List (Option String)) (s : String)
    (h : firstStr l = some s) : s ≠ "" := by
  induction l with
  | nil => exact absurd h (by simp [firstStr])
  | cons o rest ih =>
    cases o with
    | none => exact ih h
    | some t =>
      rw [show firstStr (some t :: rest) =
          (if pyTrim t = "" then firstStr rest else some t) from rfl] at h
      split at h
      · exact ih h
      · injection h with h1
        rw [← h1]
        intro hc
        rename_i hguard
        rw [hc] at hguard
        exact hguard rfl

theorem bsc5p_sid_ne (xs : List (String × Val)) : bsc5p_sid xs ≠ "" := by
  unfold bsc5p_sid
  cases h : firstStr [norm_str (dGet xs "bayerAndOrFlamsteed"),
      (norm_str (dGet xs "hdId")).map (fun h => "HD " ++ h),
      (norm_str (dGet xs "saoId")).map (fun h => "SAO " ++ h),
      norm_str (dGet xs "dmId"), norm_str (dGet xs "adsId")] with
  | some s => exact firstStr_some_ne _ s h
  | none => exact append_ne_empty_left "line:" _ (by decide)

theorem bsc5p_primary_ne (xs : List (String × Val)) (common : List String) :
    bsc5p_primary xs common ≠ "" := by
  unfold bsc5p_primary
  cases h : norm_str (Val.vstr (choose_primary_en common
      [norm_str (dGet xs "bayerAndOrFlamsteed"), some (bsc5p_sid xs)])) with
  | some s => exact norm_str_some_ne _ s h
  | none =>
    cases hb : norm_str (dGet xs "bayerAndOrFlamsteed") with
    | some b => exact norm_str_some_ne _ b hb
    | none => exact bsc5p_sid_ne xs

theorem fillF_nonempty (v : Val) (p : Option Val) (hv : v.isEmptyish = false) :
    fillF (some v) p = some v := by
  cases p with
  | none => rfl
  | some w => simp [fillF, emptyishO, hv]

theorem vstr_nonempty_isEmptyish (s : String) (hs : s ≠ "") :
    (Val.vstr s).isEmptyish = false := by
  simp [Val.isEmptyish, hs]

theorem recIdStr_some (x : CelestialRecord) (i : String) (h : recIdStr x = some i) :
    x.id = some (Val.vstr i) ∧ i ≠ "" := by
  unfold recIdStr at h
  cases hx : x.id with
  | none => rw [hx] at h; exact absurd h (by simp)
  | some v =>
    rw [hx] at h
    cases v with
    | vstr s =>
      have h2 : (if s = "" then (none : Option String) else some s) = some i := h
      by_cases hs : s = ""
      · rw [if_pos hs] at h2
        exact absurd h2 (by simp)
      · rw [if_neg hs] at h2
        injection h2 with h1
        refine ⟨by rw [h1], by rw [← h1]; exact hs⟩
    | vnull => exact absurd (show (none : Option String) = some i from h) (by simp)
    | vbool b => exact absurd (show (none : Option String) = some i from h) (by simp)
    | vnum q => exact absurd (show (none : Option String) = some i from h) (by simp)
    | vlist l => exact absurd (show (none : Option String) = some i from h) (by simp)
    | vdict d => exact absurd (show (none : Option String) = some i from h) (by simp)

/-- Every entry of `mergeStep m x` is an old entry, an update of an old entry
by `fill_missing` with `x`, or the freshly keyed `x` itself. -/
theorem mergeStep_cases (m : List (String × CelestialRecord)) (x : CelestialRecord)
    (e : String × CelestialRecord) (he : e ∈ mergeStep m x) :
    e ∈ m ∨ (∃ e₀ ∈ m, e.2 = fill_missing e₀.2 x) ∨
    (∃ i, recIdStr x = some i ∧ e = (i, x)) := by
  unfold mergeStep at he
  cases hid : recIdStr x with
  | none => rw [hid] at he; exact Or.inl he
  | some i =>
    rw [hid] at he
    have he2 : e ∈ mergeUpsert m i x := he
    unfold mergeUpsert at he2
    cases hf : m.find? (fun e => e.1 == i) with
    | none =>
      rw [hf] at he2
      rcases List.mem_append.mp he2 with h1 | h2
      · exact Or.inl h1
      · rw [List.mem_singleton] at h2
        exact Or.inr (Or.inr ⟨i, rfl, h2⟩)
    | some e₀ =>
      rw [hf] at he2
      have hmem := List.mem_of_find?_eq_some hf
      unfold assocUpdate at he2
      rcases List.mem_map.mp he2 with ⟨e', he', heq⟩
      by_cases hc : e'.1 = i
      · rw [if_pos hc] at heq
        exact Or.inr (Or.inl ⟨e₀, hmem, by rw [← heq]⟩)
      · rw [if_neg hc] at heq
        rw [← heq]
        exact Or.inl he'

/-- Value-level invariant preservation over the merge fold. -/
theorem merge_fold_inv (P : CelestialRecord → Prop) (items : List CelestialRecord) :
    ∀ m₀, (∀ e ∈ m₀, P e.2) →
    (∀ x ∈ items, P x) →
    (∀ base x, x ∈ items → P base → P (fill_missing base x)) →
    ∀ e ∈ items.foldl mergeStep m₀, P e.2 := by
  induction items with
  | nil => intro m₀ hm _ _ e he; exact hm e he
  | cons x xs ih =>
    intro m₀ hm hitems hfill e he
    rw [List.foldl_cons] at he
    refine ih (mergeStep m₀ x) ?_ (fun y hy => hitems y (List.mem_cons_of_mem x hy))
      (fun base y hy hb => hfill base y (List.mem_cons_of_mem x hy) hb) e he
    intro e' he'
    rcases mergeStep_cases m₀ x e' he' with h1 | ⟨e₀, he₀, h2⟩ | ⟨i, _, h3⟩
    · exact hm e' h1
    · rw [h2]
      exact hfill e₀.2 x (List.mem_cons_self x xs) (hm e₀ he₀)
    · rw [h3]
      exact hitems x (List.mem_cons_self x xs)

def mKeys (m : List (String × CelestialRecord)) : List String := m.map Prod.fst

/-- Keys stay distinct through the merge fold, and each stored record keeps
its key as its (non-empty, string) id. -/
theorem merge_fold_keys (items : List CelestialRecord) :
    ∀ m₀, (mKeys m₀).Nodup →
    (∀ e ∈ m₀, e.2.id = some (Val.vstr e.1) ∧ e.1 ≠ "") →
    (mKeys (items.foldl mergeStep m₀)).Nodup ∧
    (∀ e ∈ items.foldl mergeStep m₀, e.2.id = some (Val.vstr e.1) ∧ e.1 ≠ "") := by
  induction items with
  | nil => intro m₀ hk hid; exact ⟨hk, hid⟩
  | cons x xs ih =>
    intro m₀ hk hid
    rw [List.foldl_cons]
    refine ih (mergeStep m₀ x) ?_ ?_
    · unfold mergeStep
      cases hidx : recIdStr x with
      | none => exact hk
      | some i =>
        show (mKeys (mergeUpsert m₀ i x)).Nodup
        unfold mergeUpsert
        cases hf : m₀.find? (fun e => e.1 == i) with
        | none =>
          rw [show mKeys (m₀ ++ [(i, x)]) = mKeys m₀ ++ [i] from by
            simp [mKeys]]
          rw [List.nodup_append]
          refine ⟨hk, List.nodup_singleton i, ?_⟩
          intro a ha hb
          rw [List.mem_singleton] at hb
          rcases List.mem_map.mp ha with ⟨e', he', hfst⟩
          have := List.find?_eq_none.mp hf e' he'
          rw [hb] at hfst
          rw [← hfst] at this
          simp at this
        | some e₀ =>
          rw [show mKeys (assocUpdate m₀ i (fill_missing e₀.2 x)) = mKeys m₀ from by
            unfold mKeys assocUpdate
            rw [List.map_map]
            refine List.map_congr_left ?_
            intro e' _
            by_cases hc : e'.1 = i
            · simp [hc]
            · simp [hc]]
          exact hk
    · intro e he
      unfold mergeStep at he
      cases hidx : recIdStr x with
      | none =>
        rw [hidx] at he
        exact hid e he
      | some i' =>
        rw [hidx] at he
        have he2 : e ∈ mergeUpsert m₀ i' x := he
        unfold mergeUpsert at he2
        cases hf : m₀.find? (fun e => e.1 == i') with
        | none =>
          rw [hf] at he2
          rcases List.mem_append.mp he2 with ha | hb
          · exact hid e ha
          · rw [List.mem_singleton] at hb
            rw [hb]
            obtain ⟨hxid, hne⟩ := recIdStr_some x i' hidx
            exact ⟨hxid, hne⟩
        | some e₁ =>
          rw [hf] at he2
          unfold assocUpdate at he2
          rcases List.mem_map.mp he2 with ⟨e', he', heq⟩
          have he₁ := List.mem_of_find?_eq_some hf
          have he₁p := List.find?_some hf
          have he₁k : e₁.1 = i' := by simpa using he₁p
          by_cases hc : e'.1 = i'
          · rw [if_pos hc] at heq
            rw [← heq]
            obtain ⟨hidk, hnek⟩ := hid e₁ he₁
            constructor
            · show fillF e₁.2.id x.id = some (Val.vstr i')
              rw [hidk, he₁k]
              exact fillF_nonempty _ _ (vstr_nonempty_isEmptyish i' (he₁k ▸ hnek))
            · exact he₁k ▸ hnek
          · rw [if_neg hc] at heq
            rw [← heq]
            exact hid e' he'

theorem countP_snd_le_one (p : CelestialRecord → Bool) (key : String)
    (hp : ∀ (e : String × CelestialRecord), e.2.id = some (Val.vstr e.1) →
      p e.2 = true → e.1 = key) :
    ∀ m : List (String × CelestialRecord), (mKeys m).Nodup →
    (∀ e ∈ m, e.2.id = some (Val.vstr e.1) ∧ e.1 ≠ "") →
    (m.map Prod.snd).countP p ≤ 1 := by
  intro m
  induction m with
  | nil => intro _ _; simp
  | cons e m ih =>
    intro hk hid
    rw [List.map_cons, List.countP_cons]
    have hkt : (mKeys m).Nodup := by
      rw [show mKeys (e :: m) = e.1 :: mKeys m from rfl, List.nodup_cons] at hk
      exact hk.2
    have hknotin : e.1 ∉ mKeys m := by
      rw [show mKeys (e :: m) = e.1 :: mKeys m from rfl, List.nodup_cons] at hk
      exact hk.1
    cases hpe : p e.2 with
    | false =>
      simp only [hpe, Bool.false_eq_true, if_false, Nat.add_zero]
      exact ih hkt (fun e' he' => hid e' (List.mem_cons_of_mem e he'))
    | true =>
      simp only [hpe, if_true]
      have hkey : e.1 = key := hp e (hid e (List.mem_cons_self e m)).1 hpe
      have hz : (m.map Prod.snd).countP p = 0 := by
        rw [List.countP_eq_zero]
        intro r hr
        rcases List.mem_map.mp hr with ⟨e', he', hsnd⟩
        intro hpr
        have hkey' : e'.1 = key := hp e'
          (hid e' (List.mem_cons_of_mem e he')).1 (by rw [hsnd]; exact hpr)
        apply hknotin
        rw [hkey, ← hkey']
        exact List.mem_map.mpr ⟨e', he', rfl⟩
      rw [hz]

theorem insertSorted_perm (le : CelestialRecord → CelestialRecord → Bool)
    (x : CelestialRecord) : ∀ l, (insertSorted le x l).Perm (x :: l) := by
  intro l
  induction l with
  | nil => exact List.Perm.refl _
  | cons y ys ih =>
    show (if le x y then x :: y :: ys else y :: insertSorted le x ys).Perm (x :: y :: ys)
    cases hc : le x y
    · simp only [Bool.false_eq_true, if_false]
      exact (ih.cons y).trans (List.Perm.swap x y ys)
    · simp only [if_true]
      exact List.Perm.refl _

theorem stableSortBy_perm (le : CelestialRecord → CelestialRecord → Bool) :
    ∀ l, (stableSortBy le l).Perm l := by
  intro l
  induction l with
  | nil => exact List.Perm.refl _
  | cons x xs ih =>
    show (insertSorted le x (stableSortBy le xs)).Perm (x :: xs)
    exact (insertSorted_perm le x (stableSortBy le xs)).trans (ih.cons x)

/-- Every record of a successful Messier batch is the parse of one of its
mapping rows. -/
theorem messier_out_shape (oracle : Oracle) :
    ∀ (rows : List Val) (l : List CelestialRecord),
    normalize_messier_simple oracle rows = Except.ok l →
    ∀ r ∈ l, ∃ xs, r = parse_messier_dict oracle xs := by
  intro rows
  induction rows with
  | nil =>
    intro l h r hr
    have h2 : Except.ok ([] : List CelestialRecord) = Except.ok l := h
    injection h2 with h3
    rw [← h3] at hr
    simp at hr
  | cons row rs ih =>
    intro l h r hr
    unfold normalize_messier_simple at h
    rw [List.mapM_cons] at h
    cases hrow : (match parse_messier_row oracle row with
      | Except.ok r => Except.ok r
      | Except.error _ => messier_fallback oracle row) with
    | error e =>
      rw [hrow] at h
      exact absurd (show Except.error e = Except.ok l from h) (by simp)
    | ok r₀ =>
      rw [hrow] at h
      cases hrest : List.mapM (fun row =>
          match parse_messier_row oracle row with
          | Except.ok r => Except.ok r
          | Except.error _ => messier_fallback oracle row) rs with
      | error e =>
        rw [hrest] at h
        exact absurd (show Except.error e = Except.ok l from h) (by simp)
      | ok l₀ =>
        rw [hrest] at h
        have h2 : Except.ok (r₀ :: l₀) = Except.ok l := h
        injection h2 with h3
        rw [← h3] at hr
        rcases List.mem_cons.mp hr with h4 | h5
        · -- head: parse succeeded (for a non-mapping row both branches error)
          cases row with
          | vdict xs =>
            refine ⟨xs, ?_⟩
            have h6 : Except.ok (parse_messier_dict oracle xs) = Except.ok r₀ := hrow
            injection h6 with h7
            rw [h4, ← h7]
          | vnull => exact absurd hrow (by simp [parse_messier_row, messier_fallback])
          | vbool b => exact absurd hrow (by simp [parse_messier_row, messier_fallback])
          | vnum q => exact absurd hrow (by simp [parse_messier_row, messier_fallback])
          | vstr s => exact absurd hrow (by simp [parse_messier_row, messier_fallback])
          | vlist v => exact absurd hrow (by simp [parse_messier_row, messier_fallback])
        · exact ih l₀ hrest r h5

/-- A successful, surviving bright-star step yields exactly the row's
`bsc5p_rec`, and (when a threshold is set) the row's magnitude passed the
filter. -/
theorem bsc5p_step_ok_some (oracle : Oracle) (thr : Option ℚ) (co : Bool)
    (row : Val) (rec : CelestialRecord)
    (h : bsc5p_step oracle thr co row = Except.ok (some rec)) :
    ∃ xs common, row = Val.vdict xs ∧
      extract_common_names (dGet xs "namesAlt") = Except.ok common ∧
      rec = bsc5p_rec oracle xs (float_or_none (dGet xs "visualMagnitude")) common ∧
      (∀ t q, thr = some t → float_or_none (dGet xs "visualMagnitude") = some q →
        qLtB t q = false) := by
  cases row with
  | vdict xs =>
    refine ⟨xs, ?_⟩
    rw [show bsc5p_step oracle thr co (Val.vdict xs) =
        (if (match thr, float_or_none (dGet xs "visualMagnitude") with
             | some t, some q => qLtB t q
             | _, _ => false) then Except.ok none
         else
          match extract_common_names (dGet xs "namesAlt") with
          | Except.error e => Except.error e
          | Except.ok common_list =>
            if co && common_list.isEmpty then Except.ok none
            else Except.ok (some (bsc5p_rec oracle xs
              (float_or_none (dGet xs "visualMagnitude")) common_list))) from rfl] at h
    split at h
    · exact absurd h (by simp)
    · rename_i hfilter
      cases hext : extract_common_names (dGet xs "namesAlt") with
      | error e => rw [hext] at h; exact absurd h (by simp)
      | ok common =>
        rw [hext] at h
        simp only [] at h
        split at h
        · exact absurd h (by simp)
        · refine ⟨common, rfl, rfl, ?_, ?_⟩
          · injection h with h1
            injection h1 with h2
            exact h2.symm
          · intro t q ht hq
            rw [ht, hq] at hfilter
            simpa using hfilter
  | vnull => exact absurd h (by simp [bsc5p_step])
  | vbool b => exact absurd h (by simp [bsc5p_step])
  | vnum q => exact absurd h (by simp [bsc5p_step])
  | vstr s => exact absurd h (by simp [bsc5p_step])
  | vlist v => exact absurd h (by simp [bsc5p_step])

/-- Every record of a successful bright-star batch comes from a surviving
step of one of its rows. -/
theorem bsc5p_out_shape (oracle : Oracle) (thr : Option ℚ) (co : Bool) :
    ∀ (rows : List Val) (l : List CelestialRecord),
    normalize_bsc5p_known_schema oracle rows thr co = Except.ok l →
    ∀ r ∈ l, ∃ row ∈ rows, bsc5p_step oracle thr co row = Except.ok (some r) := by
  intro rows l h r hr
  unfold normalize_bsc5p_known_schema at h
  cases hm : rows.mapM (bsc5p_step oracle thr co) with
  | error e => rw [hm] at h; exact absurd h (by simp)
  | ok steps =>
    rw [hm] at h
    have h2 : Except.ok (steps.filterMap id) = Except.ok l := h
    injection h2 with h3
    rw [← h3] at hr
    rcases List.mem_filterMap.mp hr with ⟨o, ho, hid⟩
    -- o ∈ steps and id o = some r, so o = some r; find its row via mapM
    have : ∀ (rows' : List Val) (steps' : List (Option CelestialRecord)),
        rows'.mapM (bsc5p_step oracle thr co) = Except.ok steps' →
        ∀ o' ∈ steps', ∃ row ∈ rows', bsc5p_step oracle thr co row = Except.ok o' := by
      intro rows'
      induction rows' with
      | nil =>
        intro steps' hs o' ho'
        have h4 : Except.ok ([] : List (Option CelestialRecord)) = Except.ok steps' := hs
        injection h4 with h5
        rw [← h5] at ho'
        simp at ho'
      | cons row rs ih =>
        intro steps' hs o' ho'
        rw [List.mapM_cons] at hs
        cases hrow : bsc5p_step oracle thr co row with
        | error e =>
          rw [hrow] at hs
          exact absurd (show Except.error e = Except.ok steps' from hs) (by simp)
        | ok o₀ =>
          rw [hrow] at hs
          cases hrest : List.mapM (bsc5p_step oracle thr co) rs with
          | error e =>
            rw [hrest] at hs
            exact absurd (show Except.error e = Except.ok steps' from hs) (by simp)
          | ok tl =>
            rw [hrest] at hs
            have h4 : Except.ok (o₀ :: tl) = Except.ok steps' := hs
            injection h4 with h5
            rw [← h5] at ho'
            rcases List.mem_cons.mp ho' with h6 | h7
            · exact ⟨row, List.mem_cons_self row rs, by rw [hrow, h6]⟩
            · obtain ⟨row', hrow', hstep'⟩ := ih tl hrest o' h7
              exact ⟨row', List.mem_cons_of_mem row hrow', hstep'⟩
    obtain ⟨row, hrowmem, hstep⟩ := this rows steps hm o ho
    refine ⟨row, hrowmem, ?_⟩
    rw [hstep]
    cases o with
    | none => exact absurd hid (by simp)
    | some r' =>
      have hr' : r' = r := by
        have h8 : some r' = some r := hid
        injection h8
      rw [hr']

/-- A successful pipeline run splits into successful normalizations and a
permutation of the merged map's values. -/
theorem run_pipeline_ok (oracle : Oracle) (mrows brows : List Val)
    (thr : Option ℚ) (co : Bool) (out : List CelestialRecord)
    (h : run_pipeline oracle mrows brows thr co = Except.ok out) :
    ∃ messier bright,
      normalize_messier_simple oracle mrows = Except.ok messier ∧
      normalize_bsc5p_known_schema oracle brows thr co = Except.ok bright ∧
      out.Perm ((merge_catalogs (messier ++ bright ++ build_solar_bodies)).map
        (fun e => e.2)) := by
  unfold run_pipeline at h
  cases hm : normalize_messier_simple oracle mrows with
  | error e => rw [hm] at h; exact absurd h (by simp)
  | ok messier =>
    rw [hm] at h
    have h2 : (match normalize_bsc5p_known_schema oracle brows thr co with
      | Except.error e => Except.error e
      | Except.ok bright =>
        Except.ok (stableSortBy sortLe
          ((merge_catalogs (messier ++ bright ++ build_solar_bodies)).map
            (fun e => e.2)))) = Except.ok out := h
    cases hb : normalize_bsc5p_known_schema oracle brows thr co with
    | error e => rw [hb] at h2; exact absurd h2 (by simp)
    | ok bright =>
      rw [hb] at h2
      have h3 : Except.ok (stableSortBy sortLe
          ((merge_catalogs (messier ++ bright ++ build_solar_bodies)).map
            (fun e => e.2))) = Except.ok out := h2
      injection h3 with h4
      refine ⟨messier, bright, rfl, rfl, ?_⟩
      rw [← h4]
      exact stableSortBy_perm _ _

/-- A field holds a non-empty string. -/
def fieldNonempty (o : Option Val) : Bool :=
  match o with
  | some (Val.vstr s) => !(s == "")
  | _ => false

theorem fieldNonempty_iff (o : Option Val) :
    fieldNonempty o = true ↔ ∃ s, o = some (Val.vstr s) ∧ s ≠ "" := by
  cases o with
  | none => simp [fieldNonempty]
  | some v => cases v <;> simp [fieldNonempty]

theorem solar_name_facts : build_solar_bodies.all (fun r =>
    fieldNonempty r.name_en && fieldNonempty r.name_kr) = true := by decide

theorem messier_rec_name_en (oracle : Oracle) (xs : List (String × Val)) :
    ∃ s, (parse_messier_dict oracle xs).name_en = some (Val.vstr s) ∧ s ≠ "" := by
  refine ⟨messier_name_en (norm_str (dGet xs "name")) (norm_str (dGet xs "name_en"))
    (messier_mid (norm_str (dGet xs "name"))), rfl, ?_⟩
  exact messier_name_en_ne _ _ _ (fun s hs => norm_str_some_ne _ s hs)
    (messier_mid_ne _)

theorem messier_rec_name_kr (xs : List (String × Val)) :
    ∃ s, (parse_messier_dict none xs).name_kr = some (Val.vstr s) ∧ s ≠ "" := by
  refine ⟨messier_name_kr none (norm_str (dGet xs "name_kr"))
    (messier_name_en (norm_str (dGet xs "name")) (norm_str (dGet xs "name_en"))
      (messier_mid (norm_str (dGet xs "name")))), rfl, ?_⟩
  exact messier_name_kr_ne _ _ (fun s hs => norm_str_some_ne _ s hs)
    (messier_name_en_ne _ _ _ (fun s hs => norm_str_some_ne _ s hs)
      (messier_mid_ne _))

theorem bsc5p_rec_name_en (oracle : Oracle) (xs : List (String × Val))
    (mag : Option ℚ) (common : List String) :
    ∃ s, (bsc5p_rec oracle xs mag common).name_en = some (Val.vstr s) ∧ s ≠ "" := by
  exact ⟨bsc5p_primary xs common, rfl, bsc5p_primary_ne xs common⟩

theorem bsc5p_rec_name_kr (xs : List (String × Val)) (mag : Option ℚ)
    (common : List String) :
    ∃ s, (bsc5p_rec none xs mag common).name_kr = some (Val.vstr s) ∧ s ≠ "" := by
  exact ⟨krOf none (bsc5p_primary xs common), rfl,
    krOf_none_ne _ (bsc5p_primary_ne xs common)⟩

/-- C4, counterexample: with the transliteration resource available, the
pipeline output for the single Messier row `{"name_en": "-"}` contains a
record whose `name_kr` is the empty string (`"-"` tokenizes to nothing), so
the claimed non-emptiness invariant fails. -/
theorem C4_counterexample :
    ((run_pipeline (some (fun _ => none)) [Val.vdict [("name_en", Val.vstr "-")]]
        [] none false).toOption.getD []).any
      (fun r => (ovStr r.name_kr == some "") && fieldNonempty r.name_en) = true := by
  decide

/-- C4 (amended): in every successful pipeline run, every output record has
a non-empty `name_en`; `name_kr` is likewise a string on every record and is
non-empty whenever the transliteration resource is unavailable (with the
resource present it can be empty, e.g. for a name consisting only of
separator characters). -/
theorem C4_amended_names (oracle : Oracle) (mrows brows : List Val)
    (thr : Option ℚ) (co : Bool) (out : List CelestialRecord)
    (h : run_pipeline oracle mrows brows thr co = Except.ok out) :
    (∀ r ∈ out, ∃ s, r.name_en = some (Val.vstr s) ∧ s ≠ "") ∧
    (oracle = none → ∀ r ∈ out, ∃ s, r.name_kr = some (Val.vstr s) ∧ s ≠ "") := by
  obtain ⟨messier, bright, hm, hb, hperm⟩ := run_pipeline_ok oracle mrows brows thr co out h
  have hmem : ∀ r ∈ out,
      ∃ e ∈ merge_catalogs (messier ++ bright ++ build_solar_bodies), e.2 = r := by
    intro r hr
    rcases List.mem_map.mp (hperm.mem_iff.mp hr) with ⟨e, he, heq⟩
    exact ⟨e, he, heq⟩
  have hitems_en : ∀ x ∈ messier ++ bright ++ build_solar_bodies,
      ∃ s, x.name_en = some (Val.vstr s) ∧ s ≠ "" := by
    intro x hx
    rcases List.mem_append.mp hx with hx1 | hx3
    · rcases List.mem_append.mp hx1 with hx1 | hx2
      · obtain ⟨xs, hxs⟩ := messier_out_shape oracle mrows messier hm x hx1
        rw [hxs]
        exact messier_rec_name_en oracle xs
      · obtain ⟨row, _, hstep⟩ := bsc5p_out_shape oracle thr co brows bright hb x hx2
        obtain ⟨xs, common, _, _, hxrec, _⟩ := bsc5p_step_ok_some oracle thr co row x hstep
        rw [hxrec]
        exact bsc5p_rec_name_en oracle xs _ common
    · have hsf := List.all_eq_true.mp solar_name_facts x hx3
      rw [Bool.and_eq_true] at hsf
      exact (fieldNonempty_iff _).mp hsf.1
  constructor
  · intro r hr
    obtain ⟨e, he, heq⟩ := hmem r hr
    rw [← heq]
    refine merge_fold_inv (fun y => ∃ s, y.name_en = some (Val.vstr s) ∧ s ≠ "")
      (messier ++ bright ++ build_solar_bodies) [] (by simp) hitems_en ?_ e he
    intro base x _ ⟨s, hbs, hsne⟩
    refine ⟨s, ?_, hsne⟩
    show fillF base.name_en x.name_en = some (Val.vstr s)
    rw [hbs]
    exact fillF_nonempty _ _ (vstr_nonempty_isEmptyish s hsne)
  · intro horacle r hr
    subst horacle
    have hitems_kr : ∀ x ∈ messier ++ bright ++ build_solar_bodies,
        ∃ s, x.name_kr = some (Val.vstr s) ∧ s ≠ "" := by
      intro x hx
      rcases List.mem_append.mp hx with hx1 | hx3
      · rcases List.mem_append.mp hx1 with hx1 | hx2
        · obtain ⟨xs, hxs⟩ := messier_out_shape none mrows messier hm x hx1
          rw [hxs]
          exact messier_rec_name_kr xs
        · obtain ⟨row, _, hstep⟩ := bsc5p_out_shape none thr co brows bright hb x hx2
          obtain ⟨xs, common, _, _, hxrec, _⟩ := bsc5p_step_ok_some none thr co row x hstep
          rw [hxrec]
          exact bsc5p_rec_name_kr xs _ common
      · have hsf := List.all_eq_true.mp solar_name_facts x hx3
        rw [Bool.and_eq_true] at hsf
        exact (fieldNonempty_iff _).mp hsf.2
    obtain ⟨e, he, heq⟩ := hmem r hr
    rw [← heq]
    refine merge_fold_inv (fun y => ∃ s, y.name_kr = some (Val.vstr s) ∧ s ≠ "")
      (messier ++ bright ++ build_solar_bodies) [] (by simp) hitems_kr ?_ e he
    intro base x _ ⟨s, hbs, hsne⟩
    refine ⟨s, ?_, hsne⟩
    show fillF base.name_kr x.name_kr = some (Val.vstr s)
    rw [hbs]
    exact fillF_nonempty _ _ (vstr_nonempty_isEmptyish s hsne)

/-- Witness for the amended C4 theorem on a concrete empty-source run. -/
theorem C4_amended_names_witness :
    (∀ r ∈ (run_pipeline none [] [] none false).toOption.getD [],
      ∃ s, r.name_en = some (Val.vstr s) ∧ s ≠ "") ∧
    (none = (none : Oracle) → ∀ r ∈ (run_pipeline none [] [] none false).toOption.getD [],
      ∃ s, r.name_kr = some (Val.vstr s) ∧ s ≠ "") := by
  exact C4_amended_names none [] [] none false _ rfl

/-- C10: every record the Messier parser builds carries the non-empty id
`"M<n>"` or the literal `"M?"` — so the merge's skip-on-missing-id branch
never fires for Messier records — and the merged output of any successful
run contains at most one record with id `"M?"`: all pattern-less Messier
rows collapse into a single entry. -/
theorem C10_messier_id_collapse :
    (∀ (oracle : Oracle) (xs : List (String × Val)),
      recIdStr (parse_messier_dict oracle xs) =
        some (messier_mid (norm_str (dGet xs "name"))) ∧
      (messier_mid (norm_str (dGet xs "name")) = "M?" ∨
        ∃ n : Nat, messier_mid (norm_str (dGet xs "name")) = "M" ++ Nat.repr n)) ∧
    (∀ (oracle : Oracle) (mrows brows : List Val) (thr : Option ℚ) (co : Bool)
      (out : List CelestialRecord),
      run_pipeline oracle mrows brows thr co = Except.ok out →
      out.countP (fun r => ovStr r.id == some "M?") ≤ 1) := by
  constructor
  · intro oracle xs
    have hne := messier_mid_ne (norm_str (dGet xs "name"))
    constructor
    · show (if messier_mid (norm_str (dGet xs "name")) = "" then none
            else some (messier_mid (norm_str (dGet xs "name")))) = _
      rw [if_neg hne]
    · exact messier_mid_shape _
  · intro oracle mrows brows thr co out h
    obtain ⟨messier, bright, hm, hb, hperm⟩ :=
      run_pipeline_ok oracle mrows brows thr co out h
    rw [hperm.countP_eq]
    obtain ⟨hkeys, hids⟩ := merge_fold_keys (messier ++ bright ++ build_solar_bodies)
      [] (by simp [mKeys]) (by simp)
    show ((merge_catalogs (messier ++ bright ++ build_solar_bodies)).map
      Prod.snd).countP (fun r => ovStr r.id == some "M?") ≤ 1
    refine countP_snd_le_one _ "M?" ?_ _ hkeys hids
    intro e hide hp
    rw [hide] at hp
    have hp2 : (some e.1 == some "M?") = true := hp
    simpa using hp2

theorem solar_cat_facts : build_solar_bodies.all (fun r =>
    fieldNonempty r.catalog && !(ovStr r.catalog == some "BrightStar") &&
    r.magnitude.isNone) = true := by decide

/-- C5: in every successful run with a configured threshold, every output
record still catalogued as a bright star has magnitude null or at most the
threshold (the bound is inclusive), and the magnitude filter never drops a
row whose magnitude is missing/unparseable, nor one at the threshold. -/
theorem C5_magnitude_filter (oracle : Oracle) (mrows brows : List Val) (t : ℚ)
    (co : Bool) (out : List CelestialRecord)
    (h : run_pipeline oracle mrows brows (some t) co = Except.ok out) :
    (∀ r ∈ out, ovStr r.catalog = some "BrightStar" →
      r.magnitude = some Val.vnull ∨ ∃ q, r.magnitude = some (Val.vnum q) ∧ q ≤ t) ∧
    (∀ xs : List (String × Val), float_or_none (dGet xs "visualMagnitude") = none →
      bsc5p_step oracle (some t) false (Val.vdict xs) ≠ Except.ok none) ∧
    (∀ (xs : List (String × Val)) (q : ℚ),
      float_or_none (dGet xs "visualMagnitude") = some q → q ≤ t →
      bsc5p_step oracle (some t) false (Val.vdict xs) ≠ Except.ok none) := by
  obtain ⟨messier, bright, hm, hb, hperm⟩ :=
    run_pipeline_ok oracle mrows brows (some t) co out h
  refine ⟨?_, ?_, ?_⟩
  · -- the merged-output invariant, built in the three stages of the fold
    intro r hr hcat
    rcases List.mem_map.mp (hperm.mem_iff.mp hr) with ⟨e, he, heq⟩
    have hms : merge_catalogs (messier ++ bright ++ build_solar_bodies) =
        build_solar_bodies.foldl mergeStep
          (bright.foldl mergeStep (messier.foldl mergeStep [])) := by
      unfold merge_catalogs
      rw [List.foldl_append, List.foldl_append]
    -- Stage A: after the Messier stage every stored record is Messier-catalogued
    have hA : ∀ e ∈ messier.foldl mergeStep [],
        e.2.catalog = some (Val.vstr "Messier") := by
      refine merge_fold_inv (fun y => y.catalog = some (Val.vstr "Messier"))
        messier [] (by simp) ?_ ?_
      · intro x hx
        obtain ⟨xs, hxs⟩ := messier_out_shape oracle mrows messier hm x hx
        rw [hxs]
        rfl
      · intro base x _ hbase
        show fillF base.catalog x.catalog = some (Val.vstr "Messier")
        rw [hbase]
        exact fillF_nonempty _ _ (by decide)
    -- the catalogue-aware magnitude invariant
    have hQ : ∀ e ∈ build_solar_bodies.foldl mergeStep
        (bright.foldl mergeStep (messier.foldl mergeStep [])),
        (∃ s, e.2.catalog = some (Val.vstr s) ∧ s ≠ "") ∧
        (ovStr e.2.catalog = some "BrightStar" →
          e.2.magnitude = some Val.vnull ∨
          ∃ q, e.2.magnitude = some (Val.vnum q) ∧ q ≤ t) := by
      have hbrightshape : ∀ x ∈ bright,
          x.catalog = some (Val.vstr "BrightStar") ∧
          (x.magnitude = some Val.vnull ∨
            ∃ q, x.magnitude = some (Val.vnum q) ∧ q ≤ t) := by
        intro x hx
        obtain ⟨row, _, hstep⟩ := bsc5p_out_shape oracle (some t) co brows bright hb x hx
        obtain ⟨xs, common, _, _, hxrec, hfilter⟩ :=
          bsc5p_step_ok_some oracle (some t) co row x hstep
        subst hxrec
        refine ⟨rfl, ?_⟩
        cases hmag : float_or_none (dGet xs "visualMagnitude") with
        | none => exact Or.inl rfl
        | some q =>
          exact Or.inr ⟨q, rfl, (qLtB_false_iff t q).mp (hfilter t q rfl hmag)⟩
      -- Stage B over the bright items
      have hB : ∀ e ∈ bright.foldl mergeStep (messier.foldl mergeStep []),
          (∃ s, e.2.catalog = some (Val.vstr s) ∧ s ≠ "") ∧
          (ovStr e.2.catalog = some "BrightStar" →
            e.2.magnitude = some Val.vnull ∨
            ∃ q, e.2.magnitude = some (Val.vnum q) ∧ q ≤ t) := by
        refine merge_fold_inv (fun y =>
            (∃ s, y.catalog = some (Val.vstr s) ∧ s ≠ "") ∧
            (ovStr y.catalog = some "BrightStar" →
              y.magnitude = some Val.vnull ∨
              ∃ q, y.magnitude = some (Val.vnum q) ∧ q ≤ t))
          bright (messier.foldl mergeStep []) ?_ ?_ ?_
        · intro e he
          refine ⟨⟨"Messier", hA e he, by decide⟩, ?_⟩
          intro hbs
          rw [hA e he] at hbs
          exact absurd hbs (by decide)
        · intro x hx
          obtain ⟨hcatx, hmagx⟩ := hbrightshape x hx
          exact ⟨⟨"BrightStar", hcatx, by decide⟩, fun _ => hmagx⟩
        · intro base x hx ⟨⟨s, hbs, hsne⟩, hmagb⟩
          have hcatfill : (fill_missing base x).catalog = base.catalog := by
            show fillF base.catalog x.catalog = base.catalog
            rw [hbs]
            exact fillF_nonempty _ _ (vstr_nonempty_isEmptyish s hsne)
          refine ⟨⟨s, by rw [hcatfill, hbs], hsne⟩, ?_⟩
          intro hbsf
          rw [hcatfill] at hbsf
          obtain ⟨hcatx, hmagx⟩ := hbrightshape x hx
          rcases hmagb hbsf with hnull | ⟨q, hq, hqt⟩
          · -- base magnitude is None: the patch may fill it, staying in range
            rcases hmagx with hxnull | ⟨qx, hqx, hqxt⟩
            · left
              show fillF base.magnitude x.magnitude = some Val.vnull
              rw [hnull, hxnull]
              rfl
            · right
              refine ⟨qx, ?_, hqxt⟩
              show fillF base.magnitude x.magnitude = some (Val.vnum qx)
              rw [hnull, hqx]
              rfl
          · -- base magnitude is a number within the bound: never overwritten
            right
            refine ⟨q, ?_, hqt⟩
            show fillF base.magnitude x.magnitude = some (Val.vnum q)
            rw [hq]
            exact fillF_nonempty _ _ (by simp [Val.isEmptyish])
      -- Stage C over the solar items
      refine merge_fold_inv (fun y =>
          (∃ s, y.catalog = some (Val.vstr s) ∧ s ≠ "") ∧
          (ovStr y.catalog = some "BrightStar" →
            y.magnitude = some Val.vnull ∨
            ∃ q, y.magnitude = some (Val.vnum q) ∧ q ≤ t))
        build_solar_bodies
        (bright.foldl mergeStep (messier.foldl mergeStep [])) hB ?_ ?_
      · intro x hx
        have hsf := List.all_eq_true.mp solar_cat_facts x hx
        rw [Bool.and_eq_true, Bool.and_eq_true] at hsf
        obtain ⟨⟨h1, h2⟩, _⟩ := hsf
        obtain ⟨s, hcs, hsne⟩ := (fieldNonempty_iff _).mp h1
        refine ⟨⟨s, hcs, hsne⟩, ?_⟩
        intro hbs
        rw [Bool.not_eq_true'] at h2
        rw [hbs] at h2
        simp at h2
      · intro base x hx ⟨⟨s, hbs, hsne⟩, hmagb⟩
        have hsf := List.all_eq_true.mp solar_cat_facts x hx
        rw [Bool.and_eq_true, Bool.and_eq_true] at hsf
        obtain ⟨_, h3⟩ := hsf
        have hxmag : x.magnitude = none := Option.isNone_iff_eq_none.mp h3
        have hcatfill : (fill_missing base x).catalog = base.catalog := by
          show fillF base.catalog x.catalog = base.catalog
          rw [hbs]
          exact fillF_nonempty _ _ (vstr_nonempty_isEmptyish s hsne)
        refine ⟨⟨s, by rw [hcatfill, hbs], hsne⟩, ?_⟩
        intro hbsf
        rw [hcatfill] at hbsf
        rcases hmagb hbsf with hnull | ⟨q, hq, hqt⟩
        · left
          show fillF base.magnitude x.magnitude = some Val.vnull
          rw [hxmag, hnull]
          rfl
        · right
          refine ⟨q, ?_, hqt⟩
          show fillF base.magnitude x.magnitude = some (Val.vnum q)
          rw [hxmag, hq]
          rfl
    rw [hms] at he
    have := (hQ e he).2
    rw [heq] at this
    exact this hcat
  · intro xs hmag hcontr
    rw [show bsc5p_step oracle (some t) false (Val.vdict xs) =
        (if (match (some t : Option ℚ), float_or_none (dGet xs "visualMagnitude") with
             | some t, some q => qLtB t q
             | _, _ => false) then Except.ok none
         else
          match extract_common_names (dGet xs "namesAlt") with
          | Except.error e => Except.error e
          | Except.ok common_list =>
            if false && common_list.isEmpty then Except.ok none
            else Except.ok (some (bsc5p_rec oracle xs
              (float_or_none (dGet xs "visualMagnitude")) common_list))) from rfl,
      hmag] at hcontr
    cases hext : extract_common_names (dGet xs "namesAlt") with
    | error e => rw [hext] at hcontr; simp at hcontr
    | ok cl => rw [hext] at hcontr; simp at hcontr
  · intro xs q hmag hqt hcontr
    rw [show bsc5p_step oracle (some t) false (Val.vdict xs) =
        (if (match (some t : Option ℚ), float_or_none (dGet xs "visualMagnitude") with
             | some t, some q => qLtB t q
             | _, _ => false) then Except.ok none
         else
          match extract_common_names (dGet xs "namesAlt") with
          | Except.error e => Except.error e
          | Except.ok common_list =>
            if false && common_list.isEmpty then Except.ok none
            else Except.ok (some (bsc5p_rec oracle xs
              (float_or_none (dGet xs "visualMagnitude")) common_list))) from rfl,
      hmag] at hcontr
    rw [show (match (some t : Option ℚ), (some q : Option ℚ) with
        | some t, some q => qLtB t q
        | _, _ => false) = qLtB t q from rfl,
      (qLtB_false_iff t q).mpr hqt] at hcontr
    cases hext : extract_common_names (dGet xs "namesAlt") with
    | error e => rw [hext] at hcontr; simp at hcontr
    | ok cl => rw [hext] at hcontr; simp at hcontr

/-- Witness for C5 at a concrete empty-source run with threshold 7. -/
theorem C5_magnitude_filter_witness :
    (∀ r ∈ (run_pipeline none [] [] (some (qOfNat 7)) false).toOption.getD [],
      ovStr r.catalog = some "BrightStar" →
      r.magnitude = some Val.vnull ∨
      ∃ q, r.magnitude = some (Val.vnum q) ∧ q ≤ qOfNat 7) ∧
    (∀ xs : List (String × Val), float_or_none (dGet xs "visualMagnitude") = none →
      bsc5p_step none (some (qOfNat 7)) false (Val.vdict xs) ≠ Except.ok none) ∧
    (∀ (xs : List (String × Val)) (q : ℚ),
      float_or_none (dGet xs "visualMagnitude") = some q → q ≤ qOfNat 7 →
      bsc5p_step none (some (qOfNat 7)) false (Val.vdict xs) ≠ Except.ok none) := by
  exact C5_magnitude_filter none [] [] (qOfNat 7) false _ rfl

def c10row1 : Val := Val.vdict [("name", Val.vstr "foo")]

def c10row2 : Val := Val.vdict [("name", Val.vstr "bar")]

/-- Witness for C10: two pattern-less Messier rows collapse to at most one
`"M?"` output record. -/
theorem C10_messier_id_collapse_witness :
    (recIdStr (parse_messier_dict none [("name", Val.vstr "foo")]) =
      some (messier_mid (norm_str (dGet [("name", Val.vstr "foo")] "name"))) ∧
      (messier_mid (norm_str (dGet [("name", Val.vstr "foo")] "name")) = "M?" ∨
        ∃ n : Nat, messier_mid (norm_str (dGet [("name", Val.vstr "foo")] "name")) =
          "M" ++ Nat.repr n)) ∧
    ((run_pipeline none [c10row1, c10row2] [] none false).toOption.getD []).countP
      (fun r => ovStr r.id == some "M?") ≤ 1 := by
  exact ⟨C10_messier_id_collapse.1 none [("name", Val.vstr "foo")],
         C10_messier_id_collapse.2 none [c10row1, c10row2] [] none false _ rfl⟩
